import Mathlib

/-!
# imgui_impl_bgfx: view-id allocator, viewport creation and frame translation

A shallow embedding of `src/imgui_impl_bgfx.cpp`.

* Machine integers are natural numbers with explicit reduction: `bgfx::ViewId`
  and every `uint16_t` value modulo `2 ^ 16`, `uint32_t` values modulo `2 ^ 32`.
* The file-level statics `free_view_ids` and `sub_view_id` become the fields of
  `AllocState`, passed explicitly.
* A finite `float` value is the rational it denotes. Float addition, subtraction
  and multiplication are a parameter (`FloatArith`), so statements hold whatever
  the rounding; NaN and infinities are outside the model.
* Calls into bgfx are recorded as a list of `Call`s, in program order.
-/

namespace ImguiImplBgfx

/-! ## View-id allocator (lines 26-53) -/

/-- Number of values of `bgfx::ViewId` (an unsigned 16-bit integer). -/
def viewIdModulus : Nat := 65536

/-- The constant `kMaxViewId` (line 28). -/
def kMaxViewId : Nat := 255

/-- The two allocator statics: the vector `free_view_ids` (its back is the last
element of the list) and the counter `sub_view_id`. -/
structure AllocState where
  free_view_ids : List Nat
  sub_view_id : Nat
deriving DecidableEq, Repr

/-- Static initialisation: empty free list, `sub_view_id = 100` (lines 26-27). -/
def initialAllocState : AllocState := ⟨[], 100⟩

/-- The function `allocate_view_id` (lines 31-40): pop the back of the free list when
there is one, else return the counter and post-increment it (16-bit wrap-around). -/
def allocate_view_id (s : AllocState) : Nat × AllocState :=
  match s.free_view_ids.getLast? with
  | some id => (id, { s with free_view_ids := s.free_view_ids.dropLast })
  | none => (s.sub_view_id, { s with sub_view_id := (s.sub_view_id + 1) % viewIdModulus })

/-- The function `free_view_id` (lines 42-53). -/
def free_view_id (s : AllocState) (id : Nat) : AllocState :=
  if id > kMaxViewId then s
  else if id ∈ s.free_view_ids then s
  else { s with free_view_ids := s.free_view_ids ++ [id] }

/-- One call made by a client of the allocator. -/
inductive AllocOp where
  | allocate
  | free (id : Nat)
deriving DecidableEq, Repr

/-- Allocator state together with two ghost lists kept for the statements only:
`issued` holds every id returned by `allocate_view_id` so far (latest first),
`live` those returned and not passed to `free_view_id` since. -/
structure AllocTrace where
  state : AllocState
  issued : List Nat
  live : List Nat
deriving DecidableEq, Repr

/-- The trace before any call. -/
def initialAllocTrace : AllocTrace := ⟨initialAllocState, [], []⟩

/-- Perform one allocator call and update the ghost lists. -/
def AllocTrace.step (t : AllocTrace) : AllocOp → AllocTrace
  | .allocate =>
    ⟨(allocate_view_id t.state).2, (allocate_view_id t.state).1 :: t.issued,
      (allocate_view_id t.state).1 :: t.live⟩
  | .free id => ⟨free_view_id t.state id, t.issued, t.live.filter (fun x => x ≠ id)⟩

/-- Perform a sequence of allocator calls. -/
def AllocTrace.run (t : AllocTrace) : List AllocOp → AllocTrace
  | [] => t
  | op :: ops => (t.step op).run ops

/-- No `allocate_view_id` call of the sequence returns an id that is live at that
moment. -/
def uniqueWhileLive (t : AllocTrace) : List AllocOp → Bool
  | [] => true
  | .allocate :: ops =>
    decide ((allocate_view_id t.state).1 ∉ t.live) && uniqueWhileLive (t.step .allocate) ops
  | .free id :: ops => uniqueWhileLive (t.step (.free id)) ops

/-- Every `free_view_id` call of the sequence is passed an id that an earlier
`allocate_view_id` call returned. -/
def freesOnlyIssued (t : AllocTrace) : List AllocOp → Bool
  | [] => true
  | .allocate :: ops => freesOnlyIssued (t.step .allocate) ops
  | .free id :: ops => decide (id ∈ t.issued) && freesOnlyIssued (t.step (.free id)) ops

/-- Number of `allocate_view_id` calls of the sequence that take their id from the
counter `sub_view_id`, the free list being empty when they are made. -/
def counterAllocCount (t : AllocTrace) : List AllocOp → Nat
  | [] => 0
  | .allocate :: ops =>
    (if t.state.free_view_ids = [] then 1 else 0) + counterAllocCount (t.step .allocate) ops
  | .free id :: ops => counterAllocCount (t.step (.free id)) ops

/-- Invariant of the instrumented allocator used in the proofs: `n` is the counter
without its wrap-around, every id handed out so far is `k % 65536` for some
`100 ≤ k < n`, live and free ids were handed out, no live id is in the
duplicate-free free list, an id up to 255 that was handed out is live or in the
free list, and 100 was handed out once the counter has moved. -/
structure AllocInv (n : Nat) (t : AllocTrace) : Prop where
  counter : t.state.sub_view_id = n % viewIdModulus
  base : 100 ≤ n
  issued : ∀ x ∈ t.issued, ∃ k, 100 ≤ k ∧ k < n ∧ x = k % viewIdModulus
  live : ∀ x ∈ t.live, x ∈ t.issued
  free : ∀ x ∈ t.state.free_view_ids, x ∈ t.issued
  nodup : t.state.free_view_ids.Nodup
  disjoint : ∀ x ∈ t.live, x ∉ t.state.free_view_ids
  held : ∀ x ∈ t.issued, x ≤ kMaxViewId → x ∈ t.live ∨ x ∈ t.state.free_view_ids
  first : 100 < n → 100 ∈ t.issued

/-- The sequence made of `k` rounds of `allocate_view_id` followed by
`free_view_id(100)`, used in examples. -/
def recycleRounds : Nat → List AllocOp
  | 0 => []
  | k + 1 => .allocate :: .free 100 :: recycleRounds k

/-! ## Values shared by the viewport callbacks and the frame translator -/

/-- The type `ImVec2`: two `float` fields. -/
structure ImVec2 where
  x : ℚ
  y : ℚ
deriving DecidableEq

/-- The type `ImVec4`: four `float` fields; as a clip rectangle `(x, y)` is the
left/top corner and `(z, w)` the right/bottom corner. -/
structure ImVec4 where
  x : ℚ
  y : ℚ
  z : ℚ
  w : ℚ
deriving DecidableEq

/-- The arithmetic of `float`, taken as a parameter. A finite `float` value is the
rational it denotes; each operation returns the value the machine computes, that
is the exact result after rounding. Comparisons of finite values, `bx::max`,
`bx::min` and the conversion of a `uint16_t` to `float` are exact and need no
parameter. -/
structure FloatArith where
  add : ℚ → ℚ → ℚ
  sub : ℚ → ℚ → ℚ
  mul : ℚ → ℚ → ℚ

/-- Arithmetic without rounding error, used in examples: it is what binary32
computes whenever the exact result is representable, as it is for the small
integers of the examples. -/
def exactArith : FloatArith := ⟨fun a b => a + b, fun a b => a - b, fun a b => a * b⟩

/-- Conversion of a `float` to `uint16_t`: the fractional part is discarded
(truncation toward zero) and the result is taken modulo `2 ^ 16`. C++ defines the
conversion only when the truncated value is in `0 .. 65535`; there the reduction
changes nothing. -/
def toUint16 (q : ℚ) : Nat :=
  ((if 0 ≤ q then ⌊q⌋ else ⌈q⌉) % 65536).toNat

/-- Flags OR-ed into the 64-bit render state passed to `Encoder::setState`, kept
symbolic; `BLEND_ALPHA` stands for
`BGFX_STATE_BLEND_FUNC(BGFX_STATE_BLEND_SRC_ALPHA, BGFX_STATE_BLEND_INV_SRC_ALPHA)`. -/
inductive StateFlag where
  | WRITE_RGB
  | WRITE_A
  | MSAA
  | BLEND_ALPHA
deriving DecidableEq, Repr

/-- The two values `sampler_state` takes in the frame translator: `0` and
`BGFX_SAMPLER_POINT`. -/
inductive SamplerState where
  | none
  | BGFX_SAMPLER_POINT
deriving DecidableEq, Repr

/-- A call into bgfx (or into a user callback), as recorded in program order. -/
inductive Call where
  | touch (view : Nat)
  | setViewClear (view : Nat) (rgba : Nat)
  | setViewName (view : Nat)
  | setViewMode (view : Nat)
  | setViewTransform (view : Nat) (left right bottom top : ℚ)
  | setViewRect (view : Nat) (x y width height : Nat)
  | setViewFrameBuffer (view : Nat) (frameBuffer : Nat)
  | createFrameBuffer (nativeHandle : Nat) (width height : Nat)
  | destroyFrameBuffer (frameBuffer : Nat)
  | allocTransientVertexBuffer (num : Nat)
  | allocTransientIndexBuffer (num : Nat)
  | encoderBegin
  | userCallback (callback : Nat)
  | setScissor (x y width height : Nat)
  | setState (flags : List StateFlag)
  | setTexture (stage : Nat) (handle : Nat) (sampler : SamplerState)
  | setVertexBuffer (stream : Nat) (startVertex numVertices : Nat)
  | setIndexBuffer (firstIndex numIndices : Nat)
  | submit (view : Nat)
  | encoderEnd
deriving DecidableEq

/-! ## Viewport lifecycle callbacks (lines 73-141) -/

/-- The value `bgfx::kInvalidHandle` (the largest 16-bit value). -/
def kInvalidHandle : Nat := 65535

/-- The struct `imgui_viewport_data` (lines 83-89). -/
structure imgui_viewport_data where
  frameBufferHandle : Nat
  viewId : Nat
  width : Nat
  height : Nat
deriving DecidableEq, Repr

/-- The pointer `viewport->RendererUserData`: null, pointing at a live record, or
still pointing at a record that `delete` has destroyed (dangling). -/
inductive UserDataPtr where
  | null
  | record (data : imgui_viewport_data)
  | deleted
deriving DecidableEq, Repr

/-- The fields of `ImGuiViewport` the renderer callbacks read or write.
`PlatformHandle` is `none` for a null pointer. -/
structure ImGuiViewport where
  PlatformHandle : Option Nat
  RendererUserData : UserDataPtr
  Size : ImVec2
  DpiScale : ℚ
deriving DecidableEq

/-- What the viewport callbacks get from outside this file: the converter
`s_ViewportHandleConverter` (`none` when not provided; its result is `none` for a
null native handle) and the handle index `bgfx::createFrameBuffer` returns. -/
structure ViewportEnv where
  converter : Option (ImGuiViewport → Option Nat)
  createFrameBuffer : Nat → Nat → Nat → Nat

/-- The function `native_window_handle` (lines 73-81), assertions compiled out. -/
def native_window_handle (env : ViewportEnv) (viewport : ImGuiViewport) : Option Nat :=
  match env.converter with
  | none => none
  | some convert => convert viewport

/-- The function `ImguiBgfxOnCreateWindow` (lines 91-123): the new allocator state,
the viewport, and the bgfx calls made. -/
def ImguiBgfxOnCreateWindow (fl : FloatArith) (env : ViewportEnv) (s : AllocState)
    (viewport : ImGuiViewport) : AllocState × ImGuiViewport × List Call :=
  match viewport.PlatformHandle with
  | none => (s, viewport, [])
  | some _ =>
    let viewId := (allocate_view_id s).1
    let s1 := (allocate_view_id s).2
    let width := toUint16 (fl.mul viewport.Size.x viewport.DpiScale)
    let height := toUint16 (fl.mul viewport.Size.y viewport.DpiScale)
    match native_window_handle env viewport with
    | none => (s1, { viewport with RendererUserData := .deleted }, [])
    | some native_handle =>
      let frameBufferHandle := env.createFrameBuffer native_handle width height
      if frameBufferHandle = kInvalidHandle then
        (s1, { viewport with RendererUserData := .deleted },
          [.createFrameBuffer native_handle width height])
      else
        (s1, { viewport with RendererUserData := .record ⟨frameBufferHandle, viewId, width, height⟩ },
          [.createFrameBuffer native_handle width height,
           .setViewFrameBuffer viewId frameBufferHandle])

/-- The function `ImguiBgfxOnDestroyWindow` (lines 125-135). The result is `none`
when `RendererUserData` dangles: the function then reads a destroyed record. -/
def ImguiBgfxOnDestroyWindow (s : AllocState) (viewport : ImGuiViewport) :
    Option (AllocState × ImGuiViewport × List Call) :=
  match viewport.RendererUserData with
  | .null => some (s, viewport, [])
  | .record data =>
    some (free_view_id s data.viewId, { viewport with RendererUserData := .null },
      [.destroyFrameBuffer data.frameBufferHandle])
  | .deleted => none

/-! ## Frame translator (lines 59-71 and 153-284) -/

/-- The fields of `ImDrawCmd` the translator reads. `TextureId` is the value of
`(uintptr_t)cmd->TextureId`, `ElemCount` an `unsigned int`, and `UserCallback` is
`none` for a null callback pointer, else an identifier of the callback. -/
structure ImDrawCmd where
  ClipRect : ImVec4
  TextureId : Nat
  ElemCount : Nat
  UserCallback : Option Nat
deriving DecidableEq

/-- The fields of `ImDrawList` the translator reads: the command buffer and the
sizes of the vertex and index buffers. -/
structure ImDrawList where
  CmdBuffer : List ImDrawCmd
  VtxBufferSize : Nat
  IdxBufferSize : Nat
deriving DecidableEq

/-- The fields of `ImDrawData` the translator reads; `CmdLists` holds the
`CmdListsCount` draw lists in order. -/
structure ImDrawData where
  CmdLists : List ImDrawList
  DisplayPos : ImVec2
  DisplaySize : ImVec2
  FramebufferScale : ImVec2
deriving DecidableEq

/-- The transient-buffer pool of bgfx and the effect of user callbacks on it, taken
as parameters: `β` is the state of the backend. -/
structure TransientPool (β : Type) where
  getAvailTransientVertexBuffer : β → Nat → Nat
  getAvailTransientIndexBuffer : β → Nat → Nat
  allocTransientVertexBuffer : β → Nat → β
  allocTransientIndexBuffer : β → Nat → β
  userCallback : β → Nat → β

/-- The function `checkAvailTransientBuffers` (lines 59-64). -/
def checkAvailTransientBuffers {β : Type} (pool : TransientPool β) (b : β)
    (numVertices numIndices : Nat) : Bool :=
  decide (numVertices = pool.getAvailTransientVertexBuffer b numVertices) &&
    (decide (0 = numIndices) ||
      decide (numIndices = pool.getAvailTransientIndexBuffer b numIndices))

/-- The enumerator `BgfxTextureFlags::Opaque` (line 68). -/
def BgfxTextureFlags.Opaque : Nat := 2 ^ 31

/-- The enumerator `BgfxTextureFlags::PointSampler` (line 69). -/
def BgfxTextureFlags.PointSampler : Nat := 2 ^ 30

/-- The enumerator `BgfxTextureFlags::All` (line 70). -/
def BgfxTextureFlags.All : Nat := BgfxTextureFlags.Opaque ||| BgfxTextureFlags.PointSampler

/-- What lines 233-247 compute from a texture reference. -/
structure DecodedTexture where
  alphaBlend : Bool
  sampler_state : SamplerState
  texture_handle : Nat
deriving DecidableEq, Repr

/-- Lines 233-247: decode `textureInfo`. The mask `~(uint32_t)BgfxTextureFlags::All`
is a 32-bit value, so the `&=` also clears bits 32 and up; the handle is the result
converted to `uint16_t`. -/
def decodeTexture (textureInfo : Nat) : DecodedTexture :=
  { alphaBlend := if textureInfo &&& BgfxTextureFlags.Opaque ≠ 0 then false else true
    sampler_state :=
      if textureInfo &&& BgfxTextureFlags.PointSampler ≠ 0 then .BGFX_SAMPLER_POINT else .none
    texture_handle := (textureInfo &&& ((2 ^ 32 - 1) ^^^ BgfxTextureFlags.All)) % 65536 }

/-- Lines 227 and 248-252: the render state of a draw call. -/
def renderState (alphaBlend : Bool) : List StateFlag :=
  [.WRITE_RGB, .WRITE_A, .MSAA] ++ (if alphaBlend then [.BLEND_ALPHA] else [])

/-- The value `framebuffer_size = clip_size * clip_scale` (line 174). -/
def framebuffer_size (fl : FloatArith) (draw_data : ImDrawData) : ImVec2 :=
  ⟨fl.mul draw_data.DisplaySize.x draw_data.FramebufferScale.x,
   fl.mul draw_data.DisplaySize.y draw_data.FramebufferScale.y⟩

/-- Lines 255-259: the clip rectangle projected into framebuffer space. -/
def projectClipRect (fl : FloatArith) (draw_data : ImDrawData) (cmd : ImDrawCmd) : ImVec4 :=
  ⟨fl.mul (fl.sub cmd.ClipRect.x draw_data.DisplayPos.x) draw_data.FramebufferScale.x,
   fl.mul (fl.sub cmd.ClipRect.y draw_data.DisplayPos.y) draw_data.FramebufferScale.y,
   fl.mul (fl.sub cmd.ClipRect.z draw_data.DisplayPos.x) draw_data.FramebufferScale.x,
   fl.mul (fl.sub cmd.ClipRect.w draw_data.DisplayPos.y) draw_data.FramebufferScale.y⟩

/-- The test of lines 261-262: the command is drawn when it holds. -/
def clipVisible (fl : FloatArith) (draw_data : ImDrawData) (cmd : ImDrawCmd) : Bool :=
  decide ((projectClipRect fl draw_data cmd).x < (framebuffer_size fl draw_data).x) &&
  decide ((projectClipRect fl draw_data cmd).y < (framebuffer_size fl draw_data).y) &&
  decide ((projectClipRect fl draw_data cmd).z ≥ 0) &&
  decide ((projectClipRect fl draw_data cmd).w ≥ 0)

/-- Lines 264-269: the `setScissor` call of a drawn command. All four arguments are
multiplied by `clip_scale.x`, as in the source. -/
def scissorCall (fl : FloatArith) (draw_data : ImDrawData) (cmd : ImDrawCmd) : Call :=
  let x := toUint16 (max (fl.sub cmd.ClipRect.x draw_data.DisplayPos.x) 0)
  let y := toUint16 (max (fl.sub cmd.ClipRect.y draw_data.DisplayPos.y) 0)
  let width := toUint16 (min (fl.sub (fl.sub cmd.ClipRect.z draw_data.DisplayPos.x) x) 65535)
  let height := toUint16 (min (fl.sub (fl.sub cmd.ClipRect.w draw_data.DisplayPos.y) y) 65535)
  .setScissor (toUint16 (fl.mul x draw_data.FramebufferScale.x))
    (toUint16 (fl.mul y draw_data.FramebufferScale.x))
    (toUint16 (fl.mul width draw_data.FramebufferScale.x))
    (toUint16 (fl.mul height draw_data.FramebufferScale.x))

/-- The body of the command loop (lines 221-277) for one command, given the value
of `offset` on entry: the calls it makes. -/
def cmdCalls (fl : FloatArith) (view_id : Nat) (draw_data : ImDrawData) (numVertices offset : Nat)
    (cmd : ImDrawCmd) : List Call :=
  match cmd.UserCallback with
  | some callback => [.userCallback callback]
  | none =>
    if cmd.ElemCount ≠ 0 then
      if clipVisible fl draw_data cmd then
        [scissorCall fl draw_data cmd,
         .setState (renderState (decodeTexture cmd.TextureId).alphaBlend),
         .setTexture 0 (decodeTexture cmd.TextureId).texture_handle
           (decodeTexture cmd.TextureId).sampler_state,
         .setVertexBuffer 0 0 numVertices,
         .setIndexBuffer offset cmd.ElemCount,
         .submit view_id]
      else []
    else []

/-- The command loop (lines 217-280) from a given backend state and value of
`offset`: the backend state and `offset` after the loop, and the calls made.
`offset` is a `uint32_t`. -/
def cmdLoop {β : Type} (fl : FloatArith) (pool : TransientPool β) (view_id : Nat)
    (draw_data : ImDrawData) (numVertices : Nat) :
    β → Nat → List ImDrawCmd → β × Nat × List Call
  | b, offset, [] => (b, offset, [])
  | b, offset, cmd :: rest =>
    let b1 := match cmd.UserCallback with
      | some callback => pool.userCallback b callback
      | none => b
    let r := cmdLoop fl pool view_id draw_data numVertices b1
      ((offset + cmd.ElemCount) % 2 ^ 32) rest
    (r.1, r.2.1, cmdCalls fl view_id draw_data numVertices offset cmd ++ r.2.2)

/-- The value `numVertices = (uint32_t)drawList->VtxBuffer.size()` (line 197). -/
def ImDrawList.numVertices (drawList : ImDrawList) : Nat := drawList.VtxBufferSize % 2 ^ 32

/-- The value `numIndices = (uint32_t)drawList->IdxBuffer.size()` (line 198). -/
def ImDrawList.numIndices (drawList : ImDrawList) : Nat := drawList.IdxBufferSize % 2 ^ 32

/-- Lines 206-282: what one iteration of the draw-list loop does once the capacity
check has passed. -/
def processList {β : Type} (fl : FloatArith) (pool : TransientPool β) (view_id : Nat)
    (draw_data : ImDrawData) (b : β) (drawList : ImDrawList) : β × List Call :=
  let b1 := pool.allocTransientVertexBuffer b drawList.numVertices
  let b2 := pool.allocTransientIndexBuffer b1 drawList.numIndices
  let r := cmdLoop fl pool view_id draw_data drawList.numVertices b2 0 drawList.CmdBuffer
  (r.1, [.allocTransientVertexBuffer drawList.numVertices,
         .allocTransientIndexBuffer drawList.numIndices, .encoderBegin]
        ++ r.2.2 ++ [.encoderEnd])

/-- The draw-list loop (lines 191-283), with its `break` on a failed capacity
check. -/
def renderCmdLists {β : Type} (fl : FloatArith) (pool : TransientPool β) (view_id : Nat)
    (draw_data : ImDrawData) : β → List ImDrawList → β × List Call
  | b, [] => (b, [])
  | b, drawList :: rest =>
    if !checkAvailTransientBuffers pool b drawList.numVertices drawList.numIndices then (b, [])
    else
      let r := processList fl pool view_id draw_data b drawList
      let r2 := renderCmdLists fl pool view_id draw_data r.1 rest
      (r2.1, r.2 ++ r2.2)

/-- Lines 160-187: the per-view calls made before the draw-list loop. -/
def viewSetup (fl : FloatArith) (view_id : Nat) (draw_data : ImDrawData) (clearColor : Nat) :
    List Call :=
  [.touch view_id] ++ (if clearColor ≠ 0 then [.setViewClear view_id clearColor] else []) ++
  [.setViewName view_id, .setViewMode view_id,
   .setViewTransform view_id draw_data.DisplayPos.x
     (fl.add draw_data.DisplayPos.x draw_data.DisplaySize.x)
     (fl.add draw_data.DisplayPos.y draw_data.DisplaySize.y) draw_data.DisplayPos.y,
   .setViewRect view_id 0 0
     (toUint16 (fl.mul draw_data.DisplaySize.x draw_data.FramebufferScale.x))
     (toUint16 (fl.mul draw_data.DisplaySize.y draw_data.FramebufferScale.y))]

/-- The function `ImGui_ImplBgfx_Render` (lines 153-284). `ioDisplaySize` is
`ImGui::GetIO().DisplaySize`; the result is the backend state after the call and
the calls made. -/
def ImGui_ImplBgfx_Render {β : Type} (fl : FloatArith) (pool : TransientPool β)
    (ioDisplaySize : ImVec2) (b : β) (view_id : Nat) (draw_data : ImDrawData)
    (clearColor : Nat) : β × List Call :=
  if ioDisplaySize.x ≤ 0 ∨ ioDisplaySize.y ≤ 0 then (b, [])
  else
    let r := renderCmdLists fl pool view_id draw_data b draw_data.CmdLists
    (r.1, viewSetup fl view_id draw_data clearColor ++ r.2)

/-! ### Definitions used to state the properties of the translator -/

/-- Every draw list of a stream processed in order, with no capacity check. -/
def processLists {β : Type} (fl : FloatArith) (pool : TransientPool β) (view_id : Nat)
    (draw_data : ImDrawData) : β → List ImDrawList → β × List Call
  | b, [] => (b, [])
  | b, drawList :: rest =>
    let r := processList fl pool view_id draw_data b drawList
    let r2 := processLists fl pool view_id draw_data r.1 rest
    (r2.1, r.2 ++ r2.2)

/-- Sum of the element counts of the first `i` commands. -/
def elemCountBefore (cmds : List ImDrawCmd) (i : Nat) : Nat :=
  ((cmds.take i).map ImDrawCmd.ElemCount).sum

/-- A pool with a fixed number of vertices and indices left, used in examples: the
state is the pair of what is left, allocation takes from it, callbacks leave it. -/
def countingPool : TransientPool (Nat × Nat) where
  getAvailTransientVertexBuffer := fun b n => min n b.1
  getAvailTransientIndexBuffer := fun b n => min n b.2
  allocTransientVertexBuffer := fun b n => (b.1 - n, b.2)
  allocTransientIndexBuffer := fun b n => (b.1, b.2 - n)
  userCallback := fun b _ => b

/-- Whether a call is `Encoder::setScissor`. -/
def Call.isSetScissor : Call → Bool
  | .setScissor _ _ _ _ => true
  | _ => false

/-- Whether a call is `Encoder::submit`. -/
def Call.isSubmit : Call → Bool
  | .submit _ => true
  | _ => false

/-- The scissor as the specification words it: the same origin and extent as
`scissorCall`, with `x` and `width` multiplied by the framebuffer scale of the x
axis and `y` and `height` by that of the y axis. -/
def scissorPerAxis (fl : FloatArith) (draw_data : ImDrawData) (cmd : ImDrawCmd) : Call :=
  let x := toUint16 (max (fl.sub cmd.ClipRect.x draw_data.DisplayPos.x) 0)
  let y := toUint16 (max (fl.sub cmd.ClipRect.y draw_data.DisplayPos.y) 0)
  let width := toUint16 (min (fl.sub (fl.sub cmd.ClipRect.z draw_data.DisplayPos.x) x) 65535)
  let height := toUint16 (min (fl.sub (fl.sub cmd.ClipRect.w draw_data.DisplayPos.y) y) 65535)
  .setScissor (toUint16 (fl.mul x draw_data.FramebufferScale.x))
    (toUint16 (fl.mul y draw_data.FramebufferScale.y))
    (toUint16 (fl.mul width draw_data.FramebufferScale.x))
    (toUint16 (fl.mul height draw_data.FramebufferScale.y))

/-- A viewport with a platform handle and no renderer data, used in examples. -/
def sampleViewport : ImGuiViewport := ⟨some 1, .null, ⟨640, 480⟩, 1⟩

/-- Draw data of an 800 x 600 display at the origin with scale 1, no draw list. -/
def sampleDrawData : ImDrawData := ⟨[], ⟨0, 0⟩, ⟨800, 600⟩, ⟨1, 1⟩⟩

/-- Draw data of a 100 x 100 display whose framebuffer scale is 1 on the x axis
and 2 on the y axis. -/
def stretchedDrawData : ImDrawData := ⟨[], ⟨0, 0⟩, ⟨100, 100⟩, ⟨1, 2⟩⟩

/-- The calls the command at position `i` of a command buffer makes when it is
handled with the given value of `offset`; none when there is no such command. -/
def cmdCallsAt (fl : FloatArith) (view_id : Nat) (draw_data : ImDrawData) (numVertices : Nat)
    (cmds : List ImDrawCmd) (offsetAt : Nat → Nat) (i : Nat) : List Call :=
  match cmds[i]? with
  | some cmd => cmdCalls fl view_id draw_data numVertices (offsetAt i) cmd
  | none => []

/-- A clip rectangle inside the sample display. -/
def insideRect : ImVec4 := ⟨0, 0, 10, 10⟩

/-- A clip rectangle to the right of the sample display. -/
def outsideRect : ImVec4 := ⟨900, 0, 1000, 10⟩

/-- Whether a call is `bgfx::allocTransientVertexBuffer`. -/
def Call.isAllocVertex : Call → Bool
  | .allocTransientVertexBuffer _ => true
  | _ => false

/-- Whether the capacity check of line 200 passes for a draw list in a backend
state. -/
def listFits {β : Type} (pool : TransientPool β) (b : β) (drawList : ImDrawList) : Bool :=
  checkAvailTransientBuffers pool b drawList.numVertices drawList.numIndices

/-- A draw list of 4 vertices and 6 indices with one command inside the display. -/
def firstList : ImDrawList := ⟨[⟨insideRect, 0, 6, none⟩], 4, 6⟩

/-- A draw list of 20 vertices and 30 indices with one command inside the display. -/
def secondList : ImDrawList := ⟨[⟨insideRect, 0, 30, none⟩], 20, 30⟩

/-- The two sample draw lists, in order, for the sample display. -/
def twoListDrawData : ImDrawData :=
  ⟨[firstList, secondList], ⟨0, 0⟩, ⟨800, 600⟩, ⟨1, 1⟩⟩

/-- Rounding to the nearest multiple of `1/8192` (ties upward). The binary32 values
between 1024 and 2048 are the multiples of `1/8192`, so for a result in that range
this is binary32 rounding (no tie occurs in the examples). -/
def roundToGrid (q : ℚ) : ℚ := ⌊q * 8192 + 1 / 2⌋ / 8192

/-- An arithmetic with rounding, used in an example: subtraction and addition are
exact, products are rounded to the nearest multiple of `1/8192`. -/
def roundingArith : FloatArith :=
  ⟨fun a b => a + b, fun a b => a - b, fun a b => roundToGrid (a * b)⟩

/-- Draw data of a display of width 1000 whose framebuffer scale is the binary32
value nearest to 1.2. -/
def roundingDrawData : ImDrawData :=
  ⟨[], ⟨0, 0⟩, ⟨1000, 600⟩, ⟨5033165 / 4194304, 5033165 / 4194304⟩⟩

/-- A drawable command whose clip rectangle starts at `1000 - 1/16384`, the binary32
value just below 1000. -/
def roundingCmd : ImDrawCmd := ⟨⟨1000 - 1 / 16384, 0, 1100, 100⟩, 0, 6, none⟩

/-! ## Allocator lemmas -/

theorem allocate_view_id_of_getLast {s : AllocState} {id : Nat}
    (h : s.free_view_ids.getLast? = some id) :
    allocate_view_id s = (id, { s with free_view_ids := s.free_view_ids.dropLast }) := by
  simp [allocate_view_id, h]

theorem allocate_view_id_of_nil {s : AllocState} (h : s.free_view_ids = []) :
    allocate_view_id s
      = (s.sub_view_id, { s with sub_view_id := (s.sub_view_id + 1) % viewIdModulus }) := by
  simp [allocate_view_id, h]

theorem getLast_cases (l : List Nat) :
    l = [] ∨ ∃ id, l.getLast? = some id ∧ l = l.dropLast ++ [id] := by
  rcases List.eq_nil_or_concat l with h | ⟨l', a, h⟩
  · exact Or.inl h
  · right
    refine ⟨a, ?_, ?_⟩
    · simp [h]
    · simp [h]

theorem free_view_id_noop {s : AllocState} {id : Nat}
    (h : id > kMaxViewId ∨ id ∈ s.free_view_ids) : free_view_id s id = s := by
  unfold free_view_id
  rcases h with h | h
  · simp [h]
  · by_cases h1 : id > kMaxViewId <;> simp [h, h1]

theorem free_view_id_push {s : AllocState} {id : Nat}
    (h1 : ¬ id > kMaxViewId) (h2 : id ∉ s.free_view_ids) :
    free_view_id s id = { s with free_view_ids := s.free_view_ids ++ [id] } := by
  simp [free_view_id, h1, h2]

theorem free_view_id_counter (s : AllocState) (id : Nat) :
    (free_view_id s id).sub_view_id = s.sub_view_id := by
  unfold free_view_id
  split_ifs <;> rfl

theorem free_view_id_mem {s : AllocState} {id x : Nat}
    (h : x ∈ (free_view_id s id).free_view_ids) : x ∈ s.free_view_ids ∨ x = id := by
  unfold free_view_id at h
  split_ifs at h
  · exact Or.inl h
  · exact Or.inl h
  · simpa using h

theorem free_view_id_nodup {s : AllocState} (id : Nat) (h : s.free_view_ids.Nodup) :
    (free_view_id s id).free_view_ids.Nodup := by
  unfold free_view_id
  split_ifs with h1 h2
  · exact h
  · exact h
  · simp only
    rw [List.nodup_append]
    refine ⟨h, List.nodup_singleton _, ?_⟩
    intro a ha hb
    simp at hb
    subst hb
    exact h2 ha

theorem allocate_view_id_nodup {s : AllocState} (h : s.free_view_ids.Nodup) :
    (allocate_view_id s).2.free_view_ids.Nodup := by
  rcases getLast_cases s.free_view_ids with h0 | ⟨id, h1, _⟩
  · rw [allocate_view_id_of_nil h0]; simp [h0]
  · rw [allocate_view_id_of_getLast h1]
    exact h.sublist (List.dropLast_sublist _)

theorem run_free_nodup (t : AllocTrace) (ops : List AllocOp)
    (h : t.state.free_view_ids.Nodup) : (t.run ops).state.free_view_ids.Nodup := by
  induction ops generalizing t with
  | nil => exact h
  | cons op ops ih =>
    apply ih
    cases op with
    | allocate => exact allocate_view_id_nodup h
    | free id => exact free_view_id_nodup id h

theorem free_view_id_subset {s : AllocState} (id : Nat) {x : Nat}
    (h : x ∈ s.free_view_ids) : x ∈ (free_view_id s id).free_view_ids := by
  unfold free_view_id
  split_ifs
  · exact h
  · exact h
  · exact List.mem_append_left _ h

theorem free_view_id_self {s : AllocState} {id : Nat} (h : id ≤ kMaxViewId) :
    id ∈ (free_view_id s id).free_view_ids := by
  unfold free_view_id
  split_ifs with h1 h2
  · omega
  · exact h2
  · simp

theorem allocInv_initial : AllocInv 100 initialAllocTrace := by
  constructor <;> simp [initialAllocTrace, initialAllocState, viewIdModulus]

theorem allocInv_free {n : Nat} {t : AllocTrace} (inv : AllocInv n t) {id : Nat}
    (hid : id ∈ t.issued) : AllocInv n (t.step (.free id)) := by
  refine ⟨?_, inv.base, inv.issued, ?_, ?_, ?_, ?_, ?_, inv.first⟩
  · simp only [AllocTrace.step, free_view_id_counter]; exact inv.counter
  · intro x hx
    simp only [AllocTrace.step, List.mem_filter] at hx
    exact inv.live x hx.1
  · intro x hx
    simp only [AllocTrace.step] at hx ⊢
    rcases free_view_id_mem hx with h | h
    · exact inv.free x h
    · exact h ▸ hid
  · exact free_view_id_nodup id inv.nodup
  · intro x hx hx2
    simp only [AllocTrace.step, List.mem_filter, decide_eq_true_eq] at hx hx2
    rcases free_view_id_mem hx2 with h | h
    · exact inv.disjoint x hx.1 h
    · exact hx.2 h
  · intro x hx hle
    simp only [AllocTrace.step, List.mem_filter, decide_eq_true_eq] at hx ⊢
    by_cases hxid : x = id
    · right
      rw [hxid] at hle ⊢
      exact free_view_id_self hle
    · rcases inv.held x hx hle with h | h
      · exact Or.inl ⟨h, hxid⟩
      · exact Or.inr (free_view_id_subset id h)

theorem allocInv_pop {n : Nat} {t : AllocTrace} (inv : AllocInv n t) {id : Nat}
    (h : t.state.free_view_ids.getLast? = some id) :
    id ∉ t.live ∧ AllocInv n (t.step .allocate) := by
  have hmem : id ∈ t.state.free_view_ids := List.mem_of_getLast?_eq_some h
  have hsplit : t.state.free_view_ids = t.state.free_view_ids.dropLast ++ [id] := by
    rcases getLast_cases t.state.free_view_ids with h0 | ⟨id2, h1, h2⟩
    · simp [h0] at h
    · rw [h] at h1; cases h1; exact h2
  have hnd := inv.nodup
  rw [hsplit, List.nodup_append] at hnd
  have hnot : id ∉ t.state.free_view_ids.dropLast := fun hx => hnd.2.2 hx (by simp)
  refine ⟨fun hl => inv.disjoint id hl hmem, ?_⟩
  simp only [AllocTrace.step, allocate_view_id_of_getLast h]
  refine ⟨inv.counter, inv.base, ?_, ?_, ?_, hnd.1, ?_, ?_, ?_⟩
  · intro x hx
    rcases List.mem_cons.1 hx with rfl | hx
    · exact inv.issued _ (inv.free _ hmem)
    · exact inv.issued x hx
  · intro x hx
    rcases List.mem_cons.1 hx with rfl | hx
    · exact List.mem_cons_self _ _
    · exact List.mem_cons_of_mem _ (inv.live x hx)
  · intro x hx
    exact List.mem_cons_of_mem _ (inv.free x (List.mem_of_mem_dropLast hx))
  · intro x hx hx2
    rcases List.mem_cons.1 hx with rfl | hx
    · exact hnot hx2
    · exact inv.disjoint x hx (List.mem_of_mem_dropLast hx2)
  · intro x hx hle
    by_cases hxid : x = id
    · exact Or.inl (hxid ▸ List.mem_cons_self _ _)
    · have hx2 : x ∈ t.issued := by
        rcases List.mem_cons.1 hx with h1 | h1
        · exact absurd h1 hxid
        · exact h1
      rcases inv.held x hx2 hle with h1 | h1
      · exact Or.inl (List.mem_cons_of_mem _ h1)
      · right
        rw [hsplit, List.mem_append] at h1
        rcases h1 with h1 | h1
        · exact h1
        · exact absurd (List.mem_singleton.1 h1) hxid
  · intro hn
    exact List.mem_cons_of_mem _ (inv.first hn)

theorem allocInv_fresh {n : Nat} {t : AllocTrace} (inv : AllocInv n t)
    (h : t.state.free_view_ids = []) (hn : n < 100 + viewIdModulus) :
    (allocate_view_id t.state).1 = n % viewIdModulus ∧ n % viewIdModulus ∉ t.live ∧
      AllocInv (n + 1) (t.step .allocate) := by
  have hfresh : n % viewIdModulus ∉ t.issued := by
    intro hx
    obtain ⟨k, hk1, hk2, hk3⟩ := inv.issued _ hx
    simp only [viewIdModulus] at hk3 hn
    omega
  refine ⟨?_, fun hl => hfresh (inv.live _ hl), ?_⟩
  · rw [allocate_view_id_of_nil h]; exact inv.counter
  simp only [AllocTrace.step, allocate_view_id_of_nil h, inv.counter]
  refine ⟨?_, by have := inv.base; omega, ?_, ?_, ?_, ?_, ?_, ?_, ?_⟩
  · simp only [viewIdModulus]; omega
  · intro x hx
    rcases List.mem_cons.1 hx with rfl | hx
    · exact ⟨n, inv.base, by omega, rfl⟩
    · obtain ⟨k, hk1, hk2, hk3⟩ := inv.issued x hx
      exact ⟨k, hk1, by omega, hk3⟩
  · intro x hx
    rcases List.mem_cons.1 hx with rfl | hx
    · exact List.mem_cons_self _ _
    · exact List.mem_cons_of_mem _ (inv.live x hx)
  · intro x hx
    simp [h] at hx
  · simp [h]
  · intro x _ hx
    simp [h] at hx
  · intro x hx hle
    left
    rcases List.mem_cons.1 hx with rfl | hx
    · exact List.mem_cons_self _ _
    · rcases inv.held x hx hle with h1 | h1
      · exact List.mem_cons_of_mem _ h1
      · simp [h] at h1
  · intro _
    by_cases hn100 : n = 100
    · subst hn100
      exact List.mem_cons_self _ _
    · exact List.mem_cons_of_mem _ (inv.first (by have := inv.base; omega))

/-- One allocation under the invariant, as long as the counter has not come back to
100: the id returned is not live, and the invariant carries over, with the counter
one further exactly when the free list was empty. -/
theorem allocInv_allocate {n : Nat} {t : AllocTrace} (inv : AllocInv n t)
    (hn : t.state.free_view_ids = [] → n < 100 + viewIdModulus) :
    (allocate_view_id t.state).1 ∉ t.live ∧
      AllocInv (n + if t.state.free_view_ids = [] then 1 else 0) (t.step .allocate) := by
  rcases getLast_cases t.state.free_view_ids with h0 | ⟨id, h1, h2⟩
  · obtain ⟨e1, e2, e3⟩ := allocInv_fresh inv h0 (hn h0)
    rw [if_pos h0]
    exact ⟨e1 ▸ e2, e3⟩
  · obtain ⟨e2, e3⟩ := allocInv_pop inv h1
    have hne : t.state.free_view_ids ≠ [] := by
      intro h0; rw [h0] at h1; simp at h1
    rw [if_neg hne]
    refine ⟨?_, e3⟩
    rw [allocate_view_id_of_getLast h1]; exact e2

theorem uniqueWhileLive_of_inv (ops : List AllocOp) :
    ∀ (n : Nat) (t : AllocTrace), AllocInv n t →
      n + counterAllocCount t ops ≤ 100 + viewIdModulus →
      freesOnlyIssued t ops = true → uniqueWhileLive t ops = true := by
  induction ops with
  | nil => intros; rfl
  | cons op ops ih =>
    intro n t inv hn hf
    cases op with
    | allocate =>
      simp only [counterAllocCount] at hn
      simp only [freesOnlyIssued] at hf
      obtain ⟨h1, inv2⟩ := allocInv_allocate inv (fun h0 => by rw [if_pos h0] at hn; omega)
      simp only [uniqueWhileLive, Bool.and_eq_true, decide_eq_true_eq]
      exact ⟨h1, ih _ _ inv2 (by omega) hf⟩
    | free id =>
      simp only [counterAllocCount] at hn
      simp only [freesOnlyIssued, Bool.and_eq_true, decide_eq_true_eq] at hf
      simp only [uniqueWhileLive]
      exact ih n _ (allocInv_free inv hf.1) hn hf.2

theorem issued_bound_of_inv (ops : List AllocOp) :
    ∀ (n : Nat) (t : AllocTrace), AllocInv n t →
      n + counterAllocCount t ops ≤ viewIdModulus →
      freesOnlyIssued t ops = true →
      ∃ m, m ≤ viewIdModulus ∧ AllocInv m (t.run ops) := by
  induction ops with
  | nil => intro n t inv hn _; exact ⟨n, by simpa [counterAllocCount] using hn, inv⟩
  | cons op ops ih =>
    intro n t inv hn hf
    cases op with
    | allocate =>
      simp only [counterAllocCount] at hn
      simp only [freesOnlyIssued] at hf
      obtain ⟨_, inv2⟩ := allocInv_allocate inv
        (fun h0 => by rw [if_pos h0] at hn; simp only [viewIdModulus] at hn ⊢; omega)
      exact ih _ _ inv2 (by omega) hf
    | free id =>
      simp only [counterAllocCount] at hn
      simp only [freesOnlyIssued, Bool.and_eq_true, decide_eq_true_eq] at hf
      exact ih n _ (allocInv_free inv hf.1) hn hf.2

theorem uniqueWhileLive_allocate (t : AllocTrace) (ops : List AllocOp) :
    uniqueWhileLive t (.allocate :: ops)
      = (decide ((allocate_view_id t.state).1 ∉ t.live)
          && uniqueWhileLive (t.step .allocate) ops) := rfl

theorem issued_mem_run (ops : List AllocOp) :
    ∀ (t : AllocTrace) (x : Nat), x ∈ t.issued → x ∈ (t.run ops).issued := by
  induction ops with
  | nil => intro t x h; exact h
  | cons op ops ih =>
    intro t x h
    apply ih
    cases op with
    | allocate => exact List.mem_cons_of_mem _ h
    | free id => exact h

/-- The cap of C1 is exact: once more than 65536 allocations have taken their id
from the counter, one of them has returned a live id. -/
theorem uniqueWhileLive_false_of_inv (ops : List AllocOp) :
    ∀ (n : Nat) (t : AllocTrace), AllocInv n t → n ≤ 100 + viewIdModulus →
      100 + viewIdModulus < n + counterAllocCount t ops →
      freesOnlyIssued t ops = true → uniqueWhileLive t ops = false := by
  induction ops with
  | nil =>
    intro n t _ hle hlt _
    simp only [counterAllocCount] at hlt
    omega
  | cons op ops ih =>
    intro n t inv hle hlt hf
    cases op with
    | allocate =>
      simp only [counterAllocCount] at hlt
      simp only [freesOnlyIssued] at hf
      rw [uniqueWhileLive_allocate]
      by_cases h0 : t.state.free_view_ids = []
      · rw [if_pos h0] at hlt
        by_cases hn : n = 100 + viewIdModulus
        · have hret : (allocate_view_id t.state).1 = 100 := by
            rw [allocate_view_id_of_nil h0, inv.counter, hn]
            simp [viewIdModulus]
          have hlive : (100 : Nat) ∈ t.live := by
            have h100 : (100 : Nat) ∈ t.issued :=
              inv.first (by rw [hn]; simp [viewIdModulus])
            rcases inv.held 100 h100 (by simp [kMaxViewId]) with h | h
            · exact h
            · rw [h0] at h; simp at h
          simp [hret, hlive]
        · obtain ⟨_, _, inv2⟩ := allocInv_fresh inv h0 (by omega)
          rw [ih (n + 1) _ inv2 (by omega) (by omega) hf, Bool.and_false]
      · rw [if_neg h0] at hlt
        obtain ⟨_, inv2⟩ := allocInv_allocate inv (fun h => absurd h h0)
        rw [if_neg h0] at inv2
        rw [ih _ _ inv2 hle (by omega) hf, Bool.and_false]
    | free id =>
      simp only [counterAllocCount] at hlt
      simp only [freesOnlyIssued, Bool.and_eq_true, decide_eq_true_eq] at hf
      simp only [uniqueWhileLive]
      exact ih n _ (allocInv_free inv hf.1) hle hlt hf.2

/-- The cap of C9 is exact: once more than 65436 allocations have taken their id
from the counter, the id 0 has been returned. -/
theorem issued_zero_of_inv (ops : List AllocOp) :
    ∀ (n : Nat) (t : AllocTrace), AllocInv n t → n ≤ viewIdModulus →
      viewIdModulus < n + counterAllocCount t ops →
      freesOnlyIssued t ops = true → 0 ∈ (t.run ops).issued := by
  induction ops with
  | nil =>
    intro n t _ hle hlt _
    simp only [counterAllocCount] at hlt
    omega
  | cons op ops ih =>
    intro n t inv hle hlt hf
    cases op with
    | allocate =>
      simp only [counterAllocCount] at hlt
      simp only [freesOnlyIssued] at hf
      by_cases h0 : t.state.free_view_ids = []
      · rw [if_pos h0] at hlt
        by_cases hn : n = viewIdModulus
        · show 0 ∈ ((t.step .allocate).run ops).issued
          apply issued_mem_run
          have hret : (allocate_view_id t.state).1 = 0 := by
            rw [allocate_view_id_of_nil h0, inv.counter, hn]
            simp [viewIdModulus]
          simp only [AllocTrace.step, hret]
          exact List.mem_cons_self _ _
        · obtain ⟨_, _, inv2⟩ := allocInv_fresh inv h0 (by omega)
          exact ih (n + 1) _ inv2 (by omega) (by omega) hf
      · rw [if_neg h0] at hlt
        obtain ⟨_, inv2⟩ := allocInv_allocate inv (fun h => absurd h h0)
        rw [if_neg h0] at inv2
        exact ih _ _ inv2 hle (by omega) hf
    | free id =>
      simp only [counterAllocCount] at hlt
      simp only [freesOnlyIssued, Bool.and_eq_true, decide_eq_true_eq] at hf
      exact ih n _ (allocInv_free inv hf.1) hle hlt hf.2

theorem uniqueWhileLive_wraps (k : Nat) :
    ∀ (t : AllocTrace) (x : Nat), t.state.free_view_ids = [] → x ∈ t.live →
      t.state.sub_view_id < viewIdModulus → (t.state.sub_view_id + k) % viewIdModulus = x →
      uniqueWhileLive t (List.replicate (k + 1) .allocate) = false := by
  induction k with
  | zero =>
    intro t x h0 hx hlt hk
    have hret : (allocate_view_id t.state).1 = x := by
      rw [allocate_view_id_of_nil h0]
      simp only [viewIdModulus] at hlt hk ⊢
      omega
    simp [uniqueWhileLive, hret, hx]
  | succ k ih =>
    intro t x h0 hx hlt hk
    have hrest : uniqueWhileLive (t.step .allocate) (List.replicate (k + 1) .allocate) = false := by
      apply ih _ x
      · simp [AllocTrace.step, allocate_view_id_of_nil h0, h0]
      · simp [AllocTrace.step, hx]
      · simp only [AllocTrace.step, allocate_view_id_of_nil h0, viewIdModulus]
        omega
      · simp only [AllocTrace.step, allocate_view_id_of_nil h0, viewIdModulus] at hk ⊢
        omega
    show uniqueWhileLive t (.allocate :: List.replicate (k + 1) .allocate) = false
    rw [uniqueWhileLive_allocate, hrest, Bool.and_false]

theorem run_replicate_allocate (k : Nat) :
    ∀ (t : AllocTrace), t.state.free_view_ids = [] → t.state.sub_view_id < viewIdModulus →
      (t.run (List.replicate (k + 1) .allocate)).issued.head?
        = some ((t.state.sub_view_id + k) % viewIdModulus) := by
  induction k with
  | zero =>
    intro t h0 hlt
    simp only [viewIdModulus] at hlt
    simp only [List.replicate, AllocTrace.run, AllocTrace.step, allocate_view_id_of_nil h0,
      List.head?, viewIdModulus]
    congr 1
    omega
  | succ k ih =>
    intro t h0 hlt
    have h1 : (t.step .allocate).state.free_view_ids = [] := by
      simp [AllocTrace.step, allocate_view_id_of_nil h0, h0]
    have h2 : (t.step .allocate).state.sub_view_id = (t.state.sub_view_id + 1) % viewIdModulus := by
      simp [AllocTrace.step, allocate_view_id_of_nil h0]
    have h3 := ih _ h1 (by rw [h2]; simp only [viewIdModulus]; omega)
    show ((t.step .allocate).run (List.replicate (k + 1) .allocate)).issued.head? = _
    rw [h3, h2]
    simp only [viewIdModulus]
    congr 1
    omega

theorem recycleRounds_reuse (k : Nat) :
    ∀ t : AllocTrace, t.state.free_view_ids = [100] → 100 ∈ t.issued →
      freesOnlyIssued t (recycleRounds k) = true ∧
        counterAllocCount t (recycleRounds k) = 0 := by
  induction k with
  | zero => intro t _ _; exact ⟨rfl, rfl⟩
  | succ k ih =>
    intro t h0 hmem
    have hlast : t.state.free_view_ids.getLast? = some 100 := by rw [h0]; rfl
    have hne : t.state.free_view_ids ≠ [] := by rw [h0]; simp
    have hstep : ((t.step .allocate).step (.free 100)).state.free_view_ids = [100] := by
      simp [AllocTrace.step, allocate_view_id_of_getLast hlast, h0, free_view_id, kMaxViewId]
    have hiss : 100 ∈ ((t.step .allocate).step (.free 100)).issued := by
      simp [AllocTrace.step, hmem]
    obtain ⟨e1, e2⟩ := ih _ hstep hiss
    constructor
    · simp only [recycleRounds, freesOnlyIssued, e1, Bool.and_true, decide_eq_true_eq]
      simp [AllocTrace.step, hmem]
    · simp only [recycleRounds, counterAllocCount, e2, if_neg hne]

theorem recycleRounds_initial (k : Nat) :
    freesOnlyIssued initialAllocTrace (recycleRounds (k + 1)) = true ∧
      counterAllocCount initialAllocTrace (recycleRounds (k + 1)) = 1 := by
  have hstep : ((initialAllocTrace.step .allocate).step (.free 100)).state.free_view_ids
      = [100] := by decide
  have hiss : 100 ∈ ((initialAllocTrace.step .allocate).step (.free 100)).issued := by
    decide
  obtain ⟨e1, e2⟩ := recycleRounds_reuse k _ hstep hiss
  constructor
  · simp only [recycleRounds, freesOnlyIssued, e1, Bool.and_true, decide_eq_true_eq]
    decide
  · have h0 : initialAllocTrace.state.free_view_ids = [] := rfl
    simp only [recycleRounds, counterAllocCount, e2, if_pos h0]

/-! ## Claims about the allocator -/

/-- C1, as stated, fails: after `free_view_id(100)` on the initial state two
successive `allocate_view_id` calls both return 100 (once from the free list, once
from the counter); and 65537 allocations with no free in between return 100 twice,
because the 16-bit counter wraps around. -/
theorem C1_counterexample :
    uniqueWhileLive initialAllocTrace [.free 100, .allocate, .allocate] = false ∧
    uniqueWhileLive initialAllocTrace (List.replicate 65537 .allocate) = false := by
  refine ⟨by decide, ?_⟩
  have h : uniqueWhileLive (initialAllocTrace.step .allocate)
      (List.replicate 65536 .allocate) = false :=
    uniqueWhileLive_wraps 65535 (initialAllocTrace.step .allocate) 100
      (by decide) (by decide) (by decide) (by decide)
  have e : List.replicate 65537 AllocOp.allocate
      = .allocate :: List.replicate 65536 .allocate := rfl
  rw [e, uniqueWhileLive_allocate, h, Bool.and_false]

/-- C1, amended: starting from the initial state, when every `free_view_id` call is
passed an id that an earlier `allocate_view_id` call returned and at most 65536 of
the `allocate_view_id` calls take their id from the counter `sub_view_id` (calls
served from the free list are not counted), no `allocate_view_id` call returns an id
that an earlier one returned and that was not passed to `free_view_id` since. -/
theorem C1_unique_while_live (ops : List AllocOp)
    (hfree : freesOnlyIssued initialAllocTrace ops = true)
    (hcount : counterAllocCount initialAllocTrace ops ≤ 65536) :
    uniqueWhileLive initialAllocTrace ops = true :=
  uniqueWhileLive_of_inv ops 100 initialAllocTrace allocInv_initial
    (by simp only [viewIdModulus]; omega) hfree

/-- C1 on a long recycling run: 70001 rounds of allocate, free(100) make 70001
allocations, one of which takes the counter, and none returns a live id. -/
theorem C1_unique_while_live_witness :
    freesOnlyIssued initialAllocTrace (recycleRounds 70001) = true ∧
    counterAllocCount initialAllocTrace (recycleRounds 70001) = 1 ∧
    uniqueWhileLive initialAllocTrace (recycleRounds 70001) = true :=
  ⟨(recycleRounds_initial 70000).1, (recycleRounds_initial 70000).2,
   C1_unique_while_live (recycleRounds 70001) (recycleRounds_initial 70000).1
    (by rw [(recycleRounds_initial 70000).2]; decide)⟩

/-- The cap of C1 cannot be raised: with disciplined frees, a sequence in which
more than 65536 allocations take the counter has an allocation that returns a live
id. -/
theorem uniqueWhileLive_false_of_counter_wrap (ops : List AllocOp)
    (hfree : freesOnlyIssued initialAllocTrace ops = true)
    (hcount : 65536 < counterAllocCount initialAllocTrace ops) :
    uniqueWhileLive initialAllocTrace ops = false :=
  uniqueWhileLive_false_of_inv ops 100 initialAllocTrace allocInv_initial
    (by simp only [viewIdModulus]; omega) (by simp only [viewIdModulus]; omega) hfree

/-- C9, as stated, fails: `free_view_id(5)` on the initial state puts 5 on the free
list and the next `allocate_view_id` returns 5; and the 65437th allocation in a row
returns 0, because the 16-bit counter wraps around. -/
theorem C9_counterexample :
    (initialAllocTrace.run [.free 5, .allocate]).issued = [5] ∧
    (initialAllocTrace.run (List.replicate 65437 .allocate)).issued.head? = some 0 := by
  refine ⟨by decide, ?_⟩
  have h : (initialAllocTrace.run (List.replicate 65437 .allocate)).issued.head?
      = some ((initialAllocTrace.state.sub_view_id + 65436) % viewIdModulus) :=
    run_replicate_allocate 65436 initialAllocTrace rfl (by decide)
  rw [h]
  decide

/-- C9, amended: starting from the initial state, when every `free_view_id` call is
passed an id that an earlier `allocate_view_id` call returned and at most 65436 of
the `allocate_view_id` calls take their id from the counter `sub_view_id` (calls
served from the free list are not counted), every id returned by `allocate_view_id`
is at least 100. -/
theorem C9_reserved_range (ops : List AllocOp)
    (hfree : freesOnlyIssued initialAllocTrace ops = true)
    (hcount : counterAllocCount initialAllocTrace ops ≤ 65436) :
    ∀ id ∈ (initialAllocTrace.run ops).issued, 100 ≤ id := by
  obtain ⟨m, hm, inv⟩ := issued_bound_of_inv ops 100 initialAllocTrace allocInv_initial
    (by simp only [viewIdModulus]; omega) hfree
  intro id hid
  obtain ⟨k, hk1, hk2, hk3⟩ := inv.issued id hid
  simp only [viewIdModulus] at hk3 hm
  omega

/-- C9 on a long recycling run: 65437 rounds of allocate, free(100) make 65437
allocations, one of which takes the counter, and every id returned is at least
100. -/
theorem C9_reserved_range_witness :
    freesOnlyIssued initialAllocTrace (recycleRounds 65437) = true ∧
    counterAllocCount initialAllocTrace (recycleRounds 65437) = 1 ∧
    ∀ id ∈ (initialAllocTrace.run (recycleRounds 65437)).issued, 100 ≤ id :=
  ⟨(recycleRounds_initial 65436).1, (recycleRounds_initial 65436).2,
   C9_reserved_range (recycleRounds 65437) (recycleRounds_initial 65436).1
    (by rw [(recycleRounds_initial 65436).2]; decide)⟩

/-- The cap of C9 cannot be raised: with disciplined frees, a sequence in which
more than 65436 allocations take the counter has an allocation that returns 0. -/
theorem reserved_id_of_counter_wrap (ops : List AllocOp)
    (hfree : freesOnlyIssued initialAllocTrace ops = true)
    (hcount : 65436 < counterAllocCount initialAllocTrace ops) :
    0 ∈ (initialAllocTrace.run ops).issued :=
  issued_zero_of_inv ops 100 initialAllocTrace allocInv_initial
    (by simp only [viewIdModulus]; omega) (by simp only [viewIdModulus]; omega) hfree

set_option maxRecDepth 100000 in
/-- C2, as stated, fails for an id that is already in the free list and for an id
above 255. After allocate, allocate, free(100), free(101) the id 100 was returned
earlier, yet free(100) followed by allocate returns 101; after 157 allocations the
id 256 was returned earlier, yet free(256) followed by allocate returns 257. -/
theorem C2_counterexample :
    (100 ∈ (initialAllocTrace.run [.allocate, .allocate, .free 100, .free 101]).issued ∧
      (allocate_view_id (free_view_id
        (initialAllocTrace.run [.allocate, .allocate, .free 100, .free 101]).state 100)).1
        = 101) ∧
    (256 ∈ (initialAllocTrace.run (List.replicate 157 .allocate)).issued ∧
      (allocate_view_id (free_view_id
        (initialAllocTrace.run (List.replicate 157 .allocate)).state 256)).1 = 257) := by
  decide

/-- C2, amended: for every allocator state and every id `X` that is at most 255 and
not already in the free list, `free_view_id(X)` followed at once by
`allocate_view_id` returns `X` and leaves the allocator in the state it had before
the two calls. -/
theorem C2_reuse_before_growth (s : AllocState) (X : Nat)
    (hmax : X ≤ 255) (hfree : X ∉ s.free_view_ids) :
    allocate_view_id (free_view_id s X) = (X, s) := by
  rw [free_view_id_push (by simp only [kMaxViewId]; omega) hfree]
  simp [allocate_view_id]

/-- The example of C2: allocate gives 100, allocate gives 101, free(100), allocate
gives 100. -/
theorem C2_reuse_before_growth_witness :
    (initialAllocTrace.run [.allocate, .allocate]).issued = [101, 100] ∧
    100 ∉ (initialAllocTrace.run [.allocate, .allocate]).state.free_view_ids ∧
    allocate_view_id (free_view_id (initialAllocTrace.run [.allocate, .allocate]).state 100)
      = (100, (initialAllocTrace.run [.allocate, .allocate]).state) :=
  ⟨by decide, by decide, C2_reuse_before_growth _ 100 (by decide) (by decide)⟩

/-- C7: `free_view_id(id)` leaves the allocator state unchanged when `id > 255` or
`id` is already in the free list, and otherwise appends `id` to the end of the free
list (counter unchanged); applied twice it gives the same state as applied once; and
in every state reached from the initial one the free list has no duplicate. -/
theorem C7_free_tolerant_idempotent :
    (∀ (s : AllocState) (id : Nat), id > 255 ∨ id ∈ s.free_view_ids → free_view_id s id = s) ∧
    (∀ (s : AllocState) (id : Nat), ¬ (id > 255 ∨ id ∈ s.free_view_ids) →
      free_view_id s id = ⟨s.free_view_ids ++ [id], s.sub_view_id⟩) ∧
    (∀ (s : AllocState) (id : Nat), free_view_id (free_view_id s id) id = free_view_id s id) ∧
    (∀ ops : List AllocOp, (initialAllocTrace.run ops).state.free_view_ids.Nodup) := by
  refine ⟨fun s id h => free_view_id_noop h, ?_, ?_, ?_⟩
  · intro s id h
    rw [not_or] at h
    exact free_view_id_push h.1 h.2
  · intro s id
    by_cases h : id > kMaxViewId ∨ id ∈ s.free_view_ids
    · rw [free_view_id_noop h, free_view_id_noop h]
    · rw [not_or] at h
      apply free_view_id_noop
      right
      rw [free_view_id_push h.1 h.2]
      simp
  · intro ops
    exact run_free_nodup _ ops (by simp [initialAllocTrace, initialAllocState])

/-- C7 on concrete calls: freeing 300 changes nothing, freeing 100 appends it, and
freeing 100 again changes nothing. -/
theorem C7_free_tolerant_idempotent_witness :
    free_view_id ⟨[101], 103⟩ 300 = ⟨[101], 103⟩ ∧
    free_view_id ⟨[101], 103⟩ 100 = ⟨[101, 100], 103⟩ ∧
    free_view_id (free_view_id ⟨[101], 103⟩ 100) 100 = ⟨[101, 100], 103⟩ :=
  ⟨C7_free_tolerant_idempotent.1 _ 300 (by decide),
   C7_free_tolerant_idempotent.2.1 _ 100 (by decide),
   (C7_free_tolerant_idempotent.2.2.1 ⟨[101], 103⟩ 100).trans
     (C7_free_tolerant_idempotent.2.1 _ 100 (by decide))⟩

theorem and_two_pow_ne_zero (r i : Nat) : (r &&& 2 ^ i ≠ 0) ↔ r / 2 ^ i % 2 = 1 := by
  rw [Nat.and_two_pow, Nat.testBit_to_div_mod]
  have hpos : 2 ^ i ≠ 0 := by positivity
  by_cases h : r / 2 ^ i % 2 = 1
  · simp [h, hpos]
  · simp [h]

theorem textureMask_eq : (2 ^ 32 - 1) ^^^ BgfxTextureFlags.All = 2 ^ 30 - 1 := by
  decide

theorem decodeTexture_eq (r : Nat) :
    decodeTexture r =
      ⟨decide (r / 2 ^ 31 % 2 ≠ 1),
       if r / 2 ^ 30 % 2 = 1 then .BGFX_SAMPLER_POINT else .none,
       r % 65536⟩ := by
  have h1 := and_two_pow_ne_zero r 31
  have h2 := and_two_pow_ne_zero r 30
  have h3 : (r &&& ((2 ^ 32 - 1) ^^^ BgfxTextureFlags.All)) % 65536 = r % 65536 := by
    rw [textureMask_eq, Nat.and_pow_two_sub_one_eq_mod]
    norm_num
  unfold decodeTexture
  rw [h3]
  simp only [BgfxTextureFlags.Opaque, BgfxTextureFlags.PointSampler]
  by_cases a : r / 2 ^ 31 % 2 = 1 <;> by_cases b : r / 2 ^ 30 % 2 = 1 <;>
    simp only [h1, h2, a, b, if_true, if_false, not_true, not_false_eq_true, decide_True,
      decide_False, ne_eq]

/-- A texture reference built from a handle and the two flags. -/
theorem decodeTexture_pack (h : Nat) (opq point : Bool) (hh : h < 2 ^ 30) :
    decodeTexture (h + point.toNat * 2 ^ 30 + opq.toNat * 2 ^ 31) =
      ⟨!opq, if point then .BGFX_SAMPLER_POINT else .none, h % 65536⟩ := by
  rw [decodeTexture_eq]
  norm_num at hh
  have e5 : ∀ x y z : Nat, (x + y * 1073741824 + z * 2147483648) % 65536 = x % 65536 := by
    intro x y z; omega
  norm_num
  rw [e5]
  cases opq <;> cases point <;> simp <;> constructor <;> omega

/-! ## Claims about viewport creation -/

/-- On either failure path of `ImguiBgfxOnCreateWindow` the allocator is left in
the state right after `allocate_view_id`, and `RendererUserData` dangles. -/
theorem onCreateWindow_failure (fl : FloatArith) (env : ViewportEnv) (s : AllocState)
    (viewport : ImGuiViewport) (handle : Nat) (hplatform : viewport.PlatformHandle = some handle)
    (hfail : native_window_handle env viewport = none ∨
      ∃ native, native_window_handle env viewport = some native ∧
        env.createFrameBuffer native (toUint16 (fl.mul viewport.Size.x viewport.DpiScale))
          (toUint16 (fl.mul viewport.Size.y viewport.DpiScale)) = kInvalidHandle) :
    (ImguiBgfxOnCreateWindow fl env s viewport).1 = (allocate_view_id s).2 ∧
    (ImguiBgfxOnCreateWindow fl env s viewport).2.1.RendererUserData = .deleted := by
  unfold ImguiBgfxOnCreateWindow
  rw [hplatform]
  rcases hfail with h | ⟨native, h1, h2⟩
  · simp [h]
  · simp [h1, h2]

/-- C3 fails on the code, whatever the float arithmetic. With the initial allocator
and a viewport that has a platform handle: when the native handle resolves to null,
and likewise when the created frame buffer is invalid, `ImguiBgfxOnCreateWindow`
leaves the counter at 101 with an empty free list, so the id 100 it allocated is
never handed out again (the next allocation gives 101, not 100), and
`RendererUserData` is left dangling rather than null. -/
theorem C3_on_create_leaks_view_id (fl : FloatArith) :
    ((ImguiBgfxOnCreateWindow fl ⟨some (fun _ => none), fun _ _ _ => 7⟩
        initialAllocState sampleViewport).1 = ⟨[], 101⟩ ∧
     (ImguiBgfxOnCreateWindow fl ⟨some (fun _ => none), fun _ _ _ => 7⟩
        initialAllocState sampleViewport).2.1.RendererUserData = .deleted) ∧
    ((ImguiBgfxOnCreateWindow fl ⟨some (fun _ => some 9), fun _ _ _ => kInvalidHandle⟩
        initialAllocState sampleViewport).1 = ⟨[], 101⟩ ∧
     (ImguiBgfxOnCreateWindow fl ⟨some (fun _ => some 9), fun _ _ _ => kInvalidHandle⟩
        initialAllocState sampleViewport).2.1.RendererUserData = .deleted) ∧
    (allocate_view_id initialAllocState).1 = 100 ∧
    (allocate_view_id (⟨[], 101⟩ : AllocState)).1 = 101 := by
  refine ⟨⟨?_, ?_⟩, ⟨?_, ?_⟩, ?_, ?_⟩ <;>
    simp [ImguiBgfxOnCreateWindow, native_window_handle, sampleViewport, allocate_view_id,
      initialAllocState, viewIdModulus]

/-- The sibling path: `ImguiBgfxOnDestroyWindow` on a viewport with a live record
frees the record's view id and nulls `RendererUserData`. -/
theorem onDestroyWindow_frees (s : AllocState) (viewport : ImGuiViewport)
    (data : imgui_viewport_data) (h : viewport.RendererUserData = .record data) :
    ImguiBgfxOnDestroyWindow s viewport =
      some (free_view_id s data.viewId, { viewport with RendererUserData := .null },
        [.destroyFrameBuffer data.frameBufferHandle]) := by
  simp [ImguiBgfxOnDestroyWindow, h]

/-! ## Claims about the frame translator: texture flags, culling, scissor -/

/-- C5, as stated, fails: the texture reference 65536 has no flag set and its bits
0-29 are 65536, but the handle bound is 0. -/
theorem C5_counterexample :
    65536 % 2 ^ 30 = 65536 ∧ 65536 / 2 ^ 30 % 4 = 0 ∧
    (decodeTexture 65536).texture_handle = 0 := by
  decide

/-- C5, amended: for a drawn command whose 32-bit texture reference has handle bits
`h` (bits 0-29), point-sampling bit `point` (bit 30) and opaque bit `opq` (bit 31),
the texture handle bound is `h % 65536` (bits 0-15), alpha blending is in the
render state exactly when `opq` is clear, and point sampling is selected exactly
when `point` is set, each independently of the other two. -/
theorem C5_texture_decoding (fl : FloatArith) (h : Nat) (opq point : Bool)
    (hh : h < 2 ^ 30) (view_id : Nat) (draw_data : ImDrawData) (numVertices offset : Nat)
    (cmd : ImDrawCmd)
    (hcb : cmd.UserCallback = none) (hcount : cmd.ElemCount ≠ 0)
    (hvis : clipVisible fl draw_data cmd = true)
    (htex : cmd.TextureId = h + point.toNat * 2 ^ 30 + opq.toNat * 2 ^ 31) :
    decodeTexture cmd.TextureId
      = ⟨!opq, if point then .BGFX_SAMPLER_POINT else .none, h % 65536⟩ ∧
    cmdCalls fl view_id draw_data numVertices offset cmd =
      [scissorCall fl draw_data cmd,
       .setState ([.WRITE_RGB, .WRITE_A, .MSAA] ++ (if opq then [] else [.BLEND_ALPHA])),
       .setTexture 0 (h % 65536) (if point then .BGFX_SAMPLER_POINT else .none),
       .setVertexBuffer 0 0 numVertices,
       .setIndexBuffer offset cmd.ElemCount,
       .submit view_id] := by
  have hd := decodeTexture_pack h opq point hh
  rw [← htex] at hd
  refine ⟨hd, ?_⟩
  unfold cmdCalls
  rw [hcb]
  simp only [hcount, hvis, hd, renderState, ne_eq, not_false_eq_true, if_true]
  cases opq <;> rfl

theorem sample_clipVisible :
    clipVisible exactArith sampleDrawData ⟨⟨0, 0, 10, 10⟩, 42 + 2 ^ 30 + 2 ^ 31, 6, none⟩
      = true := by
  simp [clipVisible, projectClipRect, framebuffer_size, sampleDrawData, exactArith]

/-- The examples of C5: handle 42 with both flags set, and with the opaque bit
alone. -/
theorem C5_texture_decoding_witness :
    decodeTexture (42 + 2 ^ 30 + 2 ^ 31) = ⟨false, .BGFX_SAMPLER_POINT, 42⟩ ∧
    decodeTexture (42 + 2 ^ 31) = ⟨false, .none, 42⟩ ∧
    cmdCalls exactArith 3 sampleDrawData 4 0 ⟨⟨0, 0, 10, 10⟩, 42 + 2 ^ 30 + 2 ^ 31, 6, none⟩ =
      [scissorCall exactArith sampleDrawData ⟨⟨0, 0, 10, 10⟩, 42 + 2 ^ 30 + 2 ^ 31, 6, none⟩,
       .setState [.WRITE_RGB, .WRITE_A, .MSAA],
       .setTexture 0 42 .BGFX_SAMPLER_POINT,
       .setVertexBuffer 0 0 4, .setIndexBuffer 0 6, .submit 3] :=
  ⟨by decide, by decide,
   (C5_texture_decoding exactArith 42 true true (by decide) 3 sampleDrawData 4 0
      ⟨⟨0, 0, 10, 10⟩, 42 + 2 ^ 30 + 2 ^ 31, 6, none⟩ rfl (by decide) sample_clipVisible
      (by decide)).2⟩

theorem roundingCase_left :
    (projectClipRect roundingArith roundingDrawData roundingCmd).x = 1200 := by
  norm_num [projectClipRect, roundingArith, roundingDrawData, roundingCmd, roundToGrid]

theorem roundingCase_width :
    (framebuffer_size roundingArith roundingDrawData).x = 1200 := by
  norm_num [framebuffer_size, roundingArith, roundingDrawData, roundToGrid]

theorem clipVisible_iff (fl : FloatArith) (draw_data : ImDrawData) (cmd : ImDrawCmd) :
    clipVisible fl draw_data cmd = true ↔
      ((projectClipRect fl draw_data cmd).x < (framebuffer_size fl draw_data).x ∧
       (projectClipRect fl draw_data cmd).y < (framebuffer_size fl draw_data).y ∧
       0 ≤ (projectClipRect fl draw_data cmd).z ∧
       0 ≤ (projectClipRect fl draw_data cmd).w) := by
  simp only [clipVisible, Bool.and_eq_true, decide_eq_true_eq, ge_iff_le]
  tauto

/-- C6, as stated, fails at the boundary: with an 800 x 600 framebuffer, a drawable
command whose projected rectangle is (800, 0)-(900, 100) has a left edge that does
not exceed the width, a top edge that does not exceed the height and non-negative
right and bottom edges, yet no scissor is set and nothing is submitted for it. All
values are small integers, on which binary32 arithmetic is exact. -/
theorem C6_counterexample :
    ¬ ((projectClipRect exactArith sampleDrawData ⟨⟨800, 0, 900, 100⟩, 0, 6, none⟩).x
          > (framebuffer_size exactArith sampleDrawData).x ∨
       (projectClipRect exactArith sampleDrawData ⟨⟨800, 0, 900, 100⟩, 0, 6, none⟩).y
          > (framebuffer_size exactArith sampleDrawData).y ∨
       (projectClipRect exactArith sampleDrawData ⟨⟨800, 0, 900, 100⟩, 0, 6, none⟩).z < 0 ∨
       (projectClipRect exactArith sampleDrawData ⟨⟨800, 0, 900, 100⟩, 0, 6, none⟩).w < 0) ∧
    cmdCalls exactArith 3 sampleDrawData 4 0 ⟨⟨800, 0, 900, 100⟩, 0, 6, none⟩ = [] := by
  constructor
  · norm_num [projectClipRect, framebuffer_size, sampleDrawData, exactArith]
  · have h : clipVisible exactArith sampleDrawData ⟨⟨800, 0, 900, 100⟩, 0, 6, none⟩
        = false := by
      simp [clipVisible, projectClipRect, framebuffer_size, sampleDrawData, exactArith]
    simp [cmdCalls, h]

/-- C6, amended: for every drawable command (no user callback, non-zero element
count) handled by the command loop, whatever the rounding of the float arithmetic,
with `p` its clip rectangle projected as (corner - display origin) * framebuffer
scale per axis and `fb` the framebuffer size as the program computes them: exactly
one scissor is set and exactly one submission issued when `p.x < fb.x`,
`p.y < fb.y`, `p.z ≥ 0` and `p.w ≥ 0`; no scissor is set and nothing is submitted
in every other case, that is when the projected left is at least the framebuffer
width, or the projected top is at least the framebuffer height, or the projected
right is negative, or the projected bottom is negative. -/
theorem C6_clip_culling (fl : FloatArith) (view_id : Nat) (draw_data : ImDrawData)
    (numVertices offset : Nat) (cmd : ImDrawCmd)
    (hcb : cmd.UserCallback = none) (hcount : cmd.ElemCount ≠ 0) :
    (((projectClipRect fl draw_data cmd).x < (framebuffer_size fl draw_data).x ∧
      (projectClipRect fl draw_data cmd).y < (framebuffer_size fl draw_data).y ∧
      0 ≤ (projectClipRect fl draw_data cmd).z ∧
      0 ≤ (projectClipRect fl draw_data cmd).w) →
        (cmdCalls fl view_id draw_data numVertices offset cmd).countP Call.isSetScissor = 1 ∧
        (cmdCalls fl view_id draw_data numVertices offset cmd).countP Call.isSubmit = 1) ∧
    (¬ ((projectClipRect fl draw_data cmd).x < (framebuffer_size fl draw_data).x ∧
        (projectClipRect fl draw_data cmd).y < (framebuffer_size fl draw_data).y ∧
        0 ≤ (projectClipRect fl draw_data cmd).z ∧
        0 ≤ (projectClipRect fl draw_data cmd).w) →
        cmdCalls fl view_id draw_data numVertices offset cmd = []) ∧
    (((projectClipRect fl draw_data cmd).x ≥ (framebuffer_size fl draw_data).x ∨
      (projectClipRect fl draw_data cmd).y ≥ (framebuffer_size fl draw_data).y ∨
      (projectClipRect fl draw_data cmd).z < 0 ∨
      (projectClipRect fl draw_data cmd).w < 0) →
        cmdCalls fl view_id draw_data numVertices offset cmd = []) := by
  have hcull : clipVisible fl draw_data cmd = false →
      cmdCalls fl view_id draw_data numVertices offset cmd = [] := by
    intro hv
    simp [cmdCalls, hcb, hv]
  refine ⟨?_, ?_, ?_⟩
  · intro h
    have hv : clipVisible fl draw_data cmd = true := (clipVisible_iff fl draw_data cmd).2 h
    simp [cmdCalls, hcb, hcount, hv, scissorCall, Call.isSetScissor, Call.isSubmit]
  · intro h
    apply hcull
    rw [← Bool.not_eq_true, clipVisible_iff]
    exact h
  · intro h
    apply hcull
    rw [← Bool.not_eq_true, clipVisible_iff]
    intro hn
    rcases h with h | h | h | h
    · exact absurd hn.1 (not_lt.2 h)
    · exact absurd hn.2.1 (not_lt.2 h)
    · exact absurd hn.2.2.1 (not_le.2 h)
    · exact absurd hn.2.2.2 (not_le.2 h)

/-- The example of C6, a projected right edge of -5 with a framebuffer of width 800,
gives no call at all; and so does a rounding case: with products rounded to
multiples of 1/8192, display width 1000, scale 5033165/4194304 (the binary32 value
of 1.2) and clip left 1000 - 1/16384, the projected left and the framebuffer width
are both 1200, although the exact products differ. -/
theorem C6_clip_culling_witness :
    ((projectClipRect exactArith sampleDrawData ⟨⟨-50, 0, -5, 100⟩, 0, 6, none⟩).z = -5 ∧
     (framebuffer_size exactArith sampleDrawData).x = 800 ∧
     cmdCalls exactArith 3 sampleDrawData 4 0 ⟨⟨-50, 0, -5, 100⟩, 0, 6, none⟩ = []) ∧
    ((projectClipRect roundingArith roundingDrawData roundingCmd).x = 1200 ∧
     (framebuffer_size roundingArith roundingDrawData).x = 1200 ∧
     (roundingCmd.ClipRect.x - roundingDrawData.DisplayPos.x)
         * roundingDrawData.FramebufferScale.x
       < roundingDrawData.DisplaySize.x * roundingDrawData.FramebufferScale.x ∧
     cmdCalls roundingArith 3 roundingDrawData 4 0 roundingCmd = []) :=
  ⟨⟨by norm_num [projectClipRect, sampleDrawData, exactArith],
    by norm_num [framebuffer_size, sampleDrawData, exactArith],
    (C6_clip_culling exactArith 3 sampleDrawData 4 0 ⟨⟨-50, 0, -5, 100⟩, 0, 6, none⟩ rfl
      (by decide)).2.2
      (Or.inr (Or.inr (Or.inl (by norm_num [projectClipRect, sampleDrawData, exactArith]))))⟩,
   ⟨roundingCase_left, roundingCase_width,
    by norm_num [roundingCmd, roundingDrawData],
    (C6_clip_culling roundingArith 3 roundingDrawData 4 0 roundingCmd rfl (by decide)).2.2
      (Or.inl (by rw [roundingCase_left, roundingCase_width]))⟩⟩

theorem toUint16_natCast (n : Nat) (h : n < 65536) : toUint16 (n : ℚ) = n := by
  have h0 : (0 : ℚ) ≤ (n : ℚ) := Nat.cast_nonneg n
  simp only [toUint16, h0, if_true, Int.floor_natCast]
  omega

/-- C10 fails on the code. With display origin (0, 0), framebuffer scale (1, 2) and
a visible command of clip rectangle (0, 10)-(50, 30), the code sets the scissor
(0, 10, 50, 20): `y` and `height` are multiplied by the scale of the x axis. With
`y` and `height` multiplied by the scale of the y axis it is (0, 20, 50, 40). All
values are small integers, on which binary32 arithmetic is exact. -/
theorem C10_scissor_scale :
    clipVisible exactArith stretchedDrawData ⟨⟨0, 10, 50, 30⟩, 0, 6, none⟩ = true ∧
    scissorCall exactArith stretchedDrawData ⟨⟨0, 10, 50, 30⟩, 0, 6, none⟩
      = .setScissor 0 10 50 20 ∧
    scissorPerAxis exactArith stretchedDrawData ⟨⟨0, 10, 50, 30⟩, 0, 6, none⟩
      = .setScissor 0 20 50 40 := by
  have e0 : toUint16 0 = 0 := by simpa using toUint16_natCast 0 (by decide)
  have e10 : toUint16 10 = 10 := by simpa using toUint16_natCast 10 (by decide)
  have e20 : toUint16 20 = 20 := by simpa using toUint16_natCast 20 (by decide)
  have e40 : toUint16 40 = 40 := by simpa using toUint16_natCast 40 (by decide)
  have e50 : toUint16 50 = 50 := by simpa using toUint16_natCast 50 (by decide)
  refine ⟨?_, ?_, ?_⟩
  · norm_num [clipVisible, projectClipRect, framebuffer_size, stretchedDrawData, exactArith]
  · simp only [scissorCall, stretchedDrawData, exactArith]
    norm_num [e0, e10, e20, e50]
  · simp only [scissorPerAxis, stretchedDrawData, exactArith]
    norm_num [e0, e10, e20, e40, e50]

/-- When both axes have the same framebuffer scale the scissor set by the code is
the one the specification words. -/
theorem scissorCall_eq_perAxis (fl : FloatArith) (draw_data : ImDrawData) (cmd : ImDrawCmd)
    (h : draw_data.FramebufferScale.y = draw_data.FramebufferScale.x) :
    scissorCall fl draw_data cmd = scissorPerAxis fl draw_data cmd := by
  simp [scissorCall, scissorPerAxis, h]

/-! ## Claims about the command loop and the draw-list loop -/

theorem elemCountBefore_cons (cmd : ImDrawCmd) (rest : List ImDrawCmd) (i : Nat) :
    elemCountBefore (cmd :: rest) (i + 1) = cmd.ElemCount + elemCountBefore rest i := by
  simp [elemCountBefore]

theorem elemCountBefore_le (cmds : List ImDrawCmd) (i : Nat) :
    elemCountBefore cmds i ≤ (cmds.map ImDrawCmd.ElemCount).sum := by
  have h := List.sum_take_add_sum_drop (cmds.map ImDrawCmd.ElemCount) i
  rw [← List.map_take] at h
  simp only [elemCountBefore]
  omega

theorem cmdLoop_offset {β : Type} (fl : FloatArith) (pool : TransientPool β)
    (view_id : Nat)
    (draw_data : ImDrawData) (numVertices : Nat) (cmds : List ImDrawCmd) :
    ∀ (b : β) (offset : Nat), offset < 2 ^ 32 →
      (cmdLoop fl pool view_id draw_data numVertices b offset cmds).2.1
        = (offset + (cmds.map ImDrawCmd.ElemCount).sum) % 2 ^ 32 := by
  induction cmds with
  | nil =>
    intro b offset h
    simp only [cmdLoop, List.map_nil, List.sum_nil, Nat.add_zero]
    exact (Nat.mod_eq_of_lt h).symm
  | cons cmd rest ih =>
    intro b offset _
    simp only [cmdLoop, List.map_cons, List.sum_cons]
    rw [ih _ _ (Nat.mod_lt _ (by norm_num))]
    omega

theorem cmdLoop_calls {β : Type} (fl : FloatArith) (pool : TransientPool β)
    (view_id : Nat)
    (draw_data : ImDrawData) (numVertices : Nat) (cmds : List ImDrawCmd) :
    ∀ (b : β) (offset : Nat), offset < 2 ^ 32 →
      (cmdLoop fl pool view_id draw_data numVertices b offset cmds).2.2
        = (List.range cmds.length).flatMap
            (cmdCallsAt fl view_id draw_data numVertices cmds
              (fun i => (offset + elemCountBefore cmds i) % 2 ^ 32)) := by
  induction cmds with
  | nil => intro b offset _; simp [cmdLoop]
  | cons cmd rest ih =>
    intro b offset h
    simp only [cmdLoop, List.length_cons, List.range_succ_eq_map, List.flatMap_cons,
      List.flatMap_map]
    rw [ih _ _ (Nat.mod_lt _ (by norm_num))]
    congr 1
    · simp only [cmdCallsAt, List.getElem?_cons_zero, elemCountBefore, List.take_zero,
        List.map_nil, List.sum_nil, Nat.add_zero]
      rw [Nat.mod_eq_of_lt h]
    · apply List.flatMap_congr
      intro i _
      simp only [cmdCallsAt, Nat.succ_eq_add_one, List.getElem?_cons_succ,
        elemCountBefore_cons]
      have e : ((offset + cmd.ElemCount) % 2 ^ 32 + elemCountBefore rest i) % 2 ^ 32
          = (offset + (cmd.ElemCount + elemCountBefore rest i)) % 2 ^ 32 := by omega
      rw [e]

theorem cmdCalls_setIndexBuffer (fl : FloatArith) (view_id : Nat) (draw_data : ImDrawData)
    (numVertices offset : Nat) (cmd : ImDrawCmd) (first n : Nat)
    (h : Call.setIndexBuffer first n ∈ cmdCalls fl view_id draw_data numVertices offset cmd) :
    first = offset ∧ n = cmd.ElemCount := by
  unfold cmdCalls at h
  split at h
  · simp at h
  · split_ifs at h
    · simp [scissorCall] at h
      exact h
    · simp at h
    · simp at h

/-- C4, as stated, fails when the element counts add up to `2 ^ 32` or more: after
two commands of 4294967295 and 1 elements the offset is 0, not 4294967296. -/
theorem C4_counterexample :
    (cmdLoop exactArith countingPool 3 sampleDrawData 4 (10, 10) 0
      [⟨insideRect, 0, 4294967295, none⟩, ⟨insideRect, 0, 1, none⟩]).2.1 = 0 ∧
    (([⟨insideRect, 0, 4294967295, none⟩, ⟨insideRect, 0, 1, none⟩] :
      List ImDrawCmd).map ImDrawCmd.ElemCount).sum = 4294967296 := by
  constructor
  · simp [cmdLoop]
  · decide

/-- C4, amended: for every command buffer, the command loop handles the command at
position `i` with `offset` equal to the sum of the element counts of the commands
before it (callbacks, zero-count and culled commands included) reduced modulo
`2 ^ 32`, that value is the first index of the index-buffer range of the command
when it is submitted, and the offset after the loop is the sum of all element counts
modulo `2 ^ 32`; when that sum is below `2 ^ 32` no reduction takes place. -/
theorem C4_index_offset {β : Type} (fl : FloatArith) (pool : TransientPool β)
    (view_id : Nat)
    (draw_data : ImDrawData) (numVertices : Nat) (b : β) (cmds : List ImDrawCmd) :
    (cmdLoop fl pool view_id draw_data numVertices b 0 cmds).2.1
      = (cmds.map ImDrawCmd.ElemCount).sum % 2 ^ 32 ∧
    (cmdLoop fl pool view_id draw_data numVertices b 0 cmds).2.2
      = (List.range cmds.length).flatMap
          (cmdCallsAt fl view_id draw_data numVertices cmds
            (fun i => elemCountBefore cmds i % 2 ^ 32)) ∧
    (∀ (offset : Nat) (cmd : ImDrawCmd) (first n : Nat),
      Call.setIndexBuffer first n ∈ cmdCalls fl view_id draw_data numVertices offset cmd →
        first = offset ∧ n = cmd.ElemCount) ∧
    ((cmds.map ImDrawCmd.ElemCount).sum < 2 ^ 32 →
      (cmdLoop fl pool view_id draw_data numVertices b 0 cmds).2.1
        = (cmds.map ImDrawCmd.ElemCount).sum ∧
      ∀ i, elemCountBefore cmds i % 2 ^ 32 = elemCountBefore cmds i) := by
  have h1 := cmdLoop_offset fl pool view_id draw_data numVertices cmds b 0 (by norm_num)
  have h2 := cmdLoop_calls fl pool view_id draw_data numVertices cmds b 0 (by norm_num)
  simp only [Nat.zero_add] at h1 h2
  refine ⟨h1, h2, fun offset cmd first n h =>
    cmdCalls_setIndexBuffer fl view_id draw_data numVertices offset cmd first n h, ?_⟩
  intro hlt
  refine ⟨by rw [h1, Nat.mod_eq_of_lt hlt], fun i => ?_⟩
  exact Nat.mod_eq_of_lt (lt_of_le_of_lt (elemCountBefore_le cmds i) hlt)

/-- The example of C4: element counts 0, 6, 0, 12 give a final offset of 18, here
with a zero-count command, a drawn command, a callback and a culled command. -/
theorem C4_index_offset_witness :
    (cmdLoop exactArith countingPool 3 sampleDrawData 4 (10, 10) 0
      [⟨insideRect, 0, 0, none⟩, ⟨insideRect, 0, 6, none⟩, ⟨insideRect, 0, 0, some 1⟩,
       ⟨outsideRect, 0, 12, none⟩]).2.1 = 18 :=
  ((C4_index_offset exactArith countingPool 3 sampleDrawData 4 (10, 10)
      [⟨insideRect, 0, 0, none⟩, ⟨insideRect, 0, 6, none⟩, ⟨insideRect, 0, 0, some 1⟩,
       ⟨outsideRect, 0, 12, none⟩]).2.2.2 (by decide)).1

theorem cmdCalls_no_alloc (fl : FloatArith) (view_id : Nat) (draw_data : ImDrawData)
    (numVertices offset : Nat) (cmd : ImDrawCmd) :
    (cmdCalls fl view_id draw_data numVertices offset cmd).countP Call.isAllocVertex = 0 := by
  unfold cmdCalls
  split
  · simp [Call.isAllocVertex]
  · split_ifs <;> simp [Call.isAllocVertex, scissorCall]

theorem cmdLoop_no_alloc {β : Type} (fl : FloatArith) (pool : TransientPool β)
    (view_id : Nat)
    (draw_data : ImDrawData) (numVertices : Nat) (cmds : List ImDrawCmd) :
    ∀ (b : β) (offset : Nat),
      (cmdLoop fl pool view_id draw_data numVertices b offset cmds).2.2.countP
        Call.isAllocVertex = 0 := by
  induction cmds with
  | nil => intro b offset; simp [cmdLoop]
  | cons cmd rest ih =>
    intro b offset
    simp only [cmdLoop, List.countP_append, cmdCalls_no_alloc, ih, Nat.add_zero]

theorem processList_alloc_count {β : Type} (fl : FloatArith) (pool : TransientPool β)
    (view_id : Nat)
    (draw_data : ImDrawData) (b : β) (drawList : ImDrawList) :
    (processList fl pool view_id draw_data b drawList).2.countP Call.isAllocVertex = 1 := by
  simp [processList, List.countP_append, cmdLoop_no_alloc, Call.isAllocVertex,
    List.countP_cons]

theorem processLists_alloc_count {β : Type} (fl : FloatArith) (pool : TransientPool β)
    (view_id : Nat)
    (draw_data : ImDrawData) (lists : List ImDrawList) :
    ∀ b : β, (processLists fl pool view_id draw_data b lists).2.countP Call.isAllocVertex
      = lists.length := by
  induction lists with
  | nil => intro b; simp [processLists]
  | cons drawList rest ih =>
    intro b
    simp only [processLists, List.countP_append, processList_alloc_count, ih,
      List.length_cons]
    omega

theorem viewSetup_alloc_count (fl : FloatArith) (view_id : Nat) (draw_data : ImDrawData)
    (clearColor : Nat) :
    (viewSetup fl view_id draw_data clearColor).countP Call.isAllocVertex = 0 := by
  unfold viewSetup
  split_ifs <;> simp [Call.isAllocVertex, List.countP_cons]

/-- The draw-list loop processes exactly the lists before the first one that fails
the capacity check. -/
theorem renderCmdLists_prefix {β : Type} (fl : FloatArith) (pool : TransientPool β)
    (view_id : Nat)
    (draw_data : ImDrawData) (lists : List ImDrawList) :
    ∀ b : β, ∃ k, k ≤ lists.length ∧
      (∀ i drawList, i < k → lists[i]? = some drawList →
        listFits pool (processLists fl pool view_id draw_data b (lists.take i)).1 drawList = true) ∧
      (∀ drawList, lists[k]? = some drawList →
        listFits pool (processLists fl pool view_id draw_data b (lists.take k)).1 drawList = false) ∧
      renderCmdLists fl pool view_id draw_data b lists
        = processLists fl pool view_id draw_data b (lists.take k) := by
  induction lists with
  | nil =>
    intro b
    exact ⟨0, le_refl _, fun i _ hi => absurd hi (Nat.not_lt_zero i), by simp, rfl⟩
  | cons head rest ih =>
    intro b
    by_cases hfit : listFits pool b head = true
    · obtain ⟨k, hk, hpass, hfail, heq⟩ := ih (processList fl pool view_id draw_data b head).1
      refine ⟨k + 1, by simpa using hk, ?_, ?_, ?_⟩
      · intro i drawList hi hget
        cases i with
        | zero =>
          simp only [List.getElem?_cons_zero, Option.some.injEq] at hget
          subst hget
          simpa [processLists] using hfit
        | succ j =>
          simp only [List.getElem?_cons_succ] at hget
          simpa [processLists] using hpass j drawList (by omega) hget
      · intro drawList hget
        simp only [List.getElem?_cons_succ] at hget
        simpa [processLists] using hfail drawList hget
      · have hc : checkAvailTransientBuffers pool b head.numVertices head.numIndices = true :=
          hfit
        simp only [renderCmdLists, hc, Bool.not_true, Bool.false_eq_true, if_false,
          List.take_succ_cons, processLists, heq]
    · have hc : checkAvailTransientBuffers pool b head.numVertices head.numIndices = false := by
        simpa [listFits] using hfit
      refine ⟨0, Nat.zero_le _, fun i _ hi => absurd hi (Nat.not_lt_zero i), ?_, ?_⟩
      · intro drawList hget
        simp only [List.getElem?_cons_zero, Option.some.injEq] at hget
        subst hget
        simpa [processLists, listFits] using hc
      · simp [renderCmdLists, hc, processLists]

/-- C8, as stated, fails when the display size of the GUI is not positive: the call
returns at once, so not even a first draw list that passes the capacity check is
processed. -/
theorem C8_counterexample :
    listFits countingPool (10, 100) firstList = true ∧
    ImGui_ImplBgfx_Render exactArith countingPool ⟨0, 0⟩ (10, 100) 3 twoListDrawData 0
      = ((10, 100), []) := by
  constructor
  · decide
  · simp [ImGui_ImplBgfx_Render]

/-- C8, amended: when the display size of the GUI is positive in both dimensions,
`ImGui_ImplBgfx_Render` processes exactly the `k` draw lists that precede the first
list failing `checkAvailTransientBuffers` (all of them when none fails): each of
these lists passes the check in the backend state it is reached in, the calls made
are the view set-up followed by the calls of processing these `k` lists in order,
buffers are allocated `k` times, and a result is always returned. -/
theorem C8_capacity_guard {β : Type} (fl : FloatArith) (pool : TransientPool β)
    (ioDisplaySize : ImVec2) (b : β)
    (view_id : Nat) (draw_data : ImDrawData) (clearColor : Nat)
    (hx : 0 < ioDisplaySize.x) (hy : 0 < ioDisplaySize.y) :
    ∃ k, k ≤ draw_data.CmdLists.length ∧
      (∀ i drawList, i < k → draw_data.CmdLists[i]? = some drawList →
        listFits pool
          (processLists fl pool view_id draw_data b (draw_data.CmdLists.take i)).1 drawList
          = true) ∧
      (∀ drawList, draw_data.CmdLists[k]? = some drawList →
        listFits pool
          (processLists fl pool view_id draw_data b (draw_data.CmdLists.take k)).1 drawList
          = false) ∧
      ImGui_ImplBgfx_Render fl pool ioDisplaySize b view_id draw_data clearColor
        = ((processLists fl pool view_id draw_data b (draw_data.CmdLists.take k)).1,
           viewSetup fl view_id draw_data clearColor
             ++ (processLists fl pool view_id draw_data b (draw_data.CmdLists.take k)).2) ∧
      (ImGui_ImplBgfx_Render fl pool ioDisplaySize b view_id draw_data
        clearColor).2.countP Call.isAllocVertex = k := by
  obtain ⟨k, hk, hpass, hfail, heq⟩ :=
    renderCmdLists_prefix fl pool view_id draw_data draw_data.CmdLists b
  have hrender : ImGui_ImplBgfx_Render fl pool ioDisplaySize b view_id draw_data clearColor
      = ((processLists fl pool view_id draw_data b (draw_data.CmdLists.take k)).1,
         viewSetup fl view_id draw_data clearColor
           ++ (processLists fl pool view_id draw_data b (draw_data.CmdLists.take k)).2) := by
    have hnot : ¬ (ioDisplaySize.x ≤ 0 ∨ ioDisplaySize.y ≤ 0) := by
      rw [not_or, not_le, not_le]; exact ⟨hx, hy⟩
    simp only [ImGui_ImplBgfx_Render, hnot, if_false, heq]
  refine ⟨k, hk, hpass, hfail, hrender, ?_⟩
  rw [hrender]
  simp only [List.countP_append, viewSetup_alloc_count, processLists_alloc_count,
    List.length_take]
  omega

theorem firstList_calls :
    (processLists exactArith countingPool 3 twoListDrawData (10, 100) [firstList]).2 =
      [.allocTransientVertexBuffer 4, .allocTransientIndexBuffer 6, .encoderBegin,
       scissorCall exactArith twoListDrawData ⟨insideRect, 0, 6, none⟩,
       .setState [.WRITE_RGB, .WRITE_A, .MSAA, .BLEND_ALPHA],
       .setTexture 0 0 .none, .setVertexBuffer 0 0 4, .setIndexBuffer 0 6, .submit 3,
       .encoderEnd] := by
  have hv : clipVisible exactArith twoListDrawData ⟨insideRect, 0, 6, none⟩ = true := by
    norm_num [clipVisible, projectClipRect, framebuffer_size, twoListDrawData, insideRect,
      exactArith]
  have hd : decodeTexture 0 = ⟨true, .none, 0⟩ := by decide
  simp [processLists, processList, cmdLoop, firstList, cmdCalls, hv, hd, renderState,
    ImDrawList.numVertices, ImDrawList.numIndices]

/-- The example of C8: with 10 vertices left in the pool, the first list (4
vertices) is processed and the second (20 vertices) is not: buffers are allocated
once, the first list's command is submitted with its 6 indices and the 30 indices of
the second list's command never are. -/
theorem C8_capacity_guard_witness :
    ((0 : ℚ) < 800 ∧ (0 : ℚ) < 600) ∧
    (ImGui_ImplBgfx_Render exactArith countingPool ⟨800, 600⟩ (10, 100) 3 twoListDrawData
      0).2.countP Call.isAllocVertex = 1 ∧
    Call.setIndexBuffer 0 6 ∈
      (ImGui_ImplBgfx_Render exactArith countingPool ⟨800, 600⟩ (10, 100) 3 twoListDrawData 0).2 ∧
    Call.setIndexBuffer 0 30 ∉
      (ImGui_ImplBgfx_Render exactArith countingPool ⟨800, 600⟩ (10, 100) 3 twoListDrawData 0).2 := by
  obtain ⟨k, hk, hpass, hfail, heq, hcount⟩ :=
    C8_capacity_guard exactArith countingPool ⟨800, 600⟩ (10, 100) 3 twoListDrawData 0
      (by norm_num) (by norm_num)
  have h0 : listFits countingPool (10, 100) firstList = true := by decide
  have h1 : listFits countingPool
      (processLists exactArith countingPool 3 twoListDrawData (10, 100) [firstList]).1 secondList
      = false := by decide
  have hk1 : k = 1 := by
    have hlen : twoListDrawData.CmdLists.length = 2 := rfl
    rw [hlen] at hk
    rcases Nat.lt_or_ge k 1 with hlt | hge
    · have hz : k = 0 := by omega
      subst hz
      have h2 : listFits countingPool (10, 100) firstList = false := hfail firstList rfl
      rw [h0] at h2
      exact absurd h2 (by decide)
    · rcases Nat.lt_or_ge k 2 with hlt | hge2
      · omega
      · have hz : k = 2 := by omega
        subst hz
        have h2 : listFits countingPool
            (processLists exactArith countingPool 3 twoListDrawData (10, 100) [firstList]).1 secondList
            = true := hpass 1 secondList (by decide) rfl
        rw [h1] at h2
        exact absurd h2 (by decide)
  subst hk1
  have htake : List.take 1 twoListDrawData.CmdLists = [firstList] := rfl
  rw [htake] at heq
  refine ⟨⟨by norm_num, by norm_num⟩, hcount, ?_, ?_⟩
  · rw [heq]
    simp [firstList_calls]
  · rw [heq]
    simp [firstList_calls, viewSetup, scissorCall]

end ImguiImplBgfx
